import Mathlib

/-!
# Verification of the Granite marketplace auction-and-escrow engine

A shallow embedding of `src/services/marketplaceService.ts` (the
`MarketplaceService` class), `src/services/paymentGateway.ts` (the
`PixEscrowGateway` contract) and the drizzle schema of `src/db/schema.ts`.

Conventions of the embedding:
* ids (uuid columns) are modelled as `Nat`;
* timestamps are `Nat` milliseconds since epoch (`Date.getTime()`);
* monetary amounts (pg `integer` columns, cents) are `Int`;
* each service method runs one `db.transaction`: it is modelled as a pure
  function from the database state to `DB × List Event × Except String α`.
  On `Except.error` the returned `DB` is the pre-state (transaction
  rollback); the event list records, in order, the external effects that
  happened during the attempt (gateway calls, realtime broadcasts) plus a
  final `commit` marker when the transaction callback returns normally.
  Gateway calls are external and are therefore kept in the trace even when
  the transaction aborts afterwards.
* the escrow gateway is abstracted by an oracle `gw : GatewayCall → Bool`
  (`true` = the call resolves, `false` = it rejects/throws), and the
  optional realtime publisher by a flag `pubOk : Bool` telling whether a
  broadcast invocation returns normally.
-/

namespace Granite

/-- `user_type` enum of `schema.ts`. -/
inductive UserType where
  | EXECUTIVE
  | OWNER
deriving DecidableEq, Repr

/-- `slot_status` enum of `schema.ts`. -/
inductive SlotStatus where
  | OPEN
  | AUCTION_CLOSED
  | IN_PROGRESS
  | COMPLETED
  | BREACH
  | VOID
deriving DecidableEq, Repr

/-- `slot_tier` enum of `schema.ts` (`7_DAYS`, `14_DAYS`, `30_DAYS`). -/
inductive SlotTier where
  | days7
  | days14
  | days30
deriving DecidableEq, Repr

/-- `escrow_status` enum of `schema.ts`. -/
inductive EscrowStatus where
  | LOCKED
  | RELEASED
  | REFUNDED
deriving DecidableEq, Repr

/-- `contract_status` enum of `schema.ts`. -/
inductive ContractStatus where
  | ACTIVE
  | COMPLETED
  | BREACH
deriving DecidableEq, Repr

/-- A row of the `users` table (the columns the service reads). -/
structure User where
  id : Nat
  type : UserType
  verified : Bool
deriving DecidableEq, Repr

/-- A row of the `slots` table. -/
structure Slot where
  id : Nat
  executiveId : Nat
  tier : SlotTier
  category : String
  status : SlotStatus
  auctionEndsAt : Nat
  createdAt : Nat
deriving DecidableEq, Repr

/-- A row of the `executive_profiles` table. -/
structure Profile where
  userId : Nat
  inviteOnly : Bool
  activeSlotId : Option Nat
  reservePrice : Int
  categories : List String
deriving DecidableEq, Repr

/-- A row of the `bids` table. -/
structure Bid where
  id : Nat
  slotId : Nat
  ownerId : Nat
  amount : Int
  escrowStatus : EscrowStatus
  createdAt : Nat
deriving DecidableEq, Repr

/-- A row of the `contracts` table. -/
structure Contract where
  id : Nat
  slotId : Nat
  winningBidId : Nat
  clearingPrice : Int
  status : ContractStatus
  startedAt : Nat
  deadlineAt : Nat
deriving DecidableEq, Repr

/-- The persistent store: the five tables of `schema.ts`. -/
structure DB where
  users : List User
  slots : List Slot
  profiles : List Profile
  bids : List Bid
  contracts : List Contract
deriving DecidableEq, Repr

/-- One call on the `PixEscrowGateway` interface of `paymentGateway.ts`. -/
inductive GatewayCall where
  | lockFunds (referenceId ownerId : Nat) (amount : Int)
  | refundToOwner (referenceId ownerId : Nat) (amount : Int)
  | releaseToExecutive (referenceId executiveId : Nat) (netAmount platformFee : Int)
deriving DecidableEq, Repr

/-- Externally visible effects of one service transaction, in program
order. `commit` marks the successful return of the `db.transaction`
callback. -/
inductive Event where
  | gateway (call : GatewayCall)
  | broadcastBidCreated (id slotId ownerId : Nat) (amount : Int)
  | broadcastAuctionClosed (slotId : Nat) (status : SlotStatus)
      (contractId winningBidId : Option Nat) (clearingPrice : Option Int)
  | commit
deriving DecidableEq, Repr

/-- `ONE_DAY_MS` of `marketplaceService.ts`. -/
def ONE_DAY_MS : Nat := 24 * 60 * 60 * 1000

/-- Day count of `deadlineFromTier`'s `daysByTier` record. -/
def tierDays : SlotTier → Nat
  | .days7 => 7
  | .days14 => 14
  | .days30 => 30

/-- `deadlineFromTier(startedAt, tier)`. -/
def deadlineFromTier (startedAt : Nat) (tier : SlotTier) : Nat :=
  startedAt + tierDays tier * ONE_DAY_MS

/-- `select ... from users where eq(users.id, id) limit 1`. -/
def findUser (db : DB) (id : Nat) : Option User :=
  db.users.find? (fun u => decide (u.id = id))

/-- `select ... from slots where eq(slots.id, id) limit 1`. -/
def findSlot (db : DB) (id : Nat) : Option Slot :=
  db.slots.find? (fun s => decide (s.id = id))

/-- `select ... from executive_profiles where eq(userId, id) limit 1`. -/
def findProfile (db : DB) (id : Nat) : Option Profile :=
  db.profiles.find? (fun p => decide (p.userId = id))

/-- `select ... from bids where eq(bids.id, id) limit 1`. -/
def bidById (db : DB) (id : Nat) : Option Bid :=
  db.bids.find? (fun b => decide (b.id = id))

/-- `select ... from contracts where eq(contracts.id, id) limit 1`. -/
def findContract (db : DB) (id : Nat) : Option Contract :=
  db.contracts.find? (fun c => decide (c.id = id))

/-- `update bids set escrowStatus = to where id = bidId and escrowStatus = from`. -/
def updateBidStatus (db : DB) (bidId : Nat) (fromSt toSt : EscrowStatus) : DB :=
  { db with
    bids := db.bids.map fun b =>
      if b.id = bidId ∧ b.escrowStatus = fromSt then { b with escrowStatus := toSt } else b }

/-- `update slots set status = st where id = slotId`. -/
def setSlotStatus (db : DB) (slotId : Nat) (st : SlotStatus) : DB :=
  { db with
    slots := db.slots.map fun s => if s.id = slotId then { s with status := st } else s }

/-- `update contracts set status = st where id = contractId`. -/
def setContractStatus (db : DB) (contractId : Nat) (st : ContractStatus) : DB :=
  { db with
    contracts := db.contracts.map fun c =>
      if c.id = contractId then { c with status := st } else c }

/-- `update executive_profiles set activeSlotId = null where userId = uid`. -/
def clearActiveSlot (db : DB) (uid : Nat) : DB :=
  { db with
    profiles := db.profiles.map fun p =>
      if p.userId = uid then { p with activeSlotId := none } else p }

/-- The total order of `orderBy(desc(bids.amount), asc(bids.createdAt), asc(bids.id))`:
amount descending, then creation time ascending, then id ascending. -/
def bidLE (a b : Bid) : Prop :=
  b.amount < a.amount ∨
    (a.amount = b.amount ∧
      (a.createdAt < b.createdAt ∨ (a.createdAt = b.createdAt ∧ a.id ≤ b.id)))

instance : DecidableRel bidLE := fun a b => by
  unfold bidLE; infer_instance

/-- Strict version of `bidLE`: `a` comes strictly before `b` in the
deterministic ranking. -/
def bidPrec (a b : Bid) : Prop :=
  b.amount < a.amount ∨
    (a.amount = b.amount ∧
      (a.createdAt < b.createdAt ∨ (a.createdAt = b.createdAt ∧ a.id < b.id)))

instance : DecidableRel bidPrec := fun a b => by
  unfold bidPrec; infer_instance

instance : IsTotal Bid bidLE := by
  constructor
  intro a b
  unfold bidLE
  rcases lt_trichotomy a.amount b.amount with h | h | h
  · exact Or.inr (Or.inl h)
  · rcases lt_trichotomy a.createdAt b.createdAt with h2 | h2 | h2
    · exact Or.inl (Or.inr ⟨h, Or.inl h2⟩)
    · rcases Nat.le_total a.id b.id with h3 | h3
      · exact Or.inl (Or.inr ⟨h, Or.inr ⟨h2, h3⟩⟩)
      · exact Or.inr (Or.inr ⟨h.symm, Or.inr ⟨h2.symm, h3⟩⟩)
    · exact Or.inr (Or.inr ⟨h.symm, Or.inl h2⟩)
  · exact Or.inl (Or.inl h)

instance : IsTrans Bid bidLE := by
  constructor
  intro a b c hab hbc
  unfold bidLE at *
  rcases hab with h1 | ⟨h1e, h1r⟩
  · rcases hbc with h2 | ⟨h2e, _⟩
    · exact Or.inl (h2.trans h1)
    · exact Or.inl (h2e ▸ h1)
  · rcases hbc with h2 | ⟨h2e, h2r⟩
    · exact Or.inl (h1e ▸ h2)
    · refine Or.inr ⟨h1e.trans h2e, ?_⟩
      rcases h1r with h1c | ⟨h1c, h1i⟩
      · rcases h2r with h2c | ⟨h2c, _⟩
        · exact Or.inl (h1c.trans h2c)
        · exact Or.inl (h2c ▸ h1c)
      · rcases h2r with h2c | ⟨h2c, h2i⟩
        · exact Or.inl (h1c ▸ h2c)
        · exact Or.inr ⟨h1c.trans h2c, h1i.trans h2i⟩

/-- Bids of a slot in the order produced by
`orderBy(desc(amount), asc(createdAt), asc(id))`. -/
def sortedSlotBids (db : DB) (slotId : Nat) : List Bid :=
  List.insertionSort bidLE (db.bids.filter (fun b => decide (b.slotId = slotId)))

/-- Result type of one service transaction: post-state (pre-state on
error, i.e. rollback), effect trace, and the returned value or the thrown
error message. -/
abbrev Tx (α : Type) : Type := DB × List Event × Except String α

instance {ε α : Type} [DecidableEq ε] [DecidableEq α] : DecidableEq (Except ε α) := fun a b =>
  match a, b with
  | .error e1, .error e2 =>
    if h : e1 = e2 then isTrue (by rw [h])
    else isFalse (by intro hcon; injection hcon; contradiction)
  | .error _, .ok _ => isFalse (fun hcon => Except.noConfusion hcon)
  | .ok _, .error _ => isFalse (fun hcon => Except.noConfusion hcon)
  | .ok a1, .ok a2 =>
    if h : a1 = a2 then isTrue (by rw [h])
    else isFalse (by intro hcon; injection hcon; contradiction)

/-- `MarketplaceService.createExecutiveSlot`. `now` is `new Date()`,
`newSlotId` the id generated by the store for the inserted row. -/
def createExecutiveSlot (db : DB) (executiveUserId : Nat) (tier : SlotTier)
    (category : String) (reservePrice : Int) (categories : List String)
    (now : Nat) (newSlotId : Nat) : Tx Slot :=
  if reservePrice ≤ 0 then
    (db, [], .error "reservePrice must be a positive integer in cents")
  else
    match findUser db executiveUserId with
    | none => (db, [], .error "Only verified executives can create slots")
    | some executive =>
      if ¬ (executive.type = .EXECUTIVE ∧ executive.verified) then
        (db, [], .error "Only verified executives can create slots")
      else
        let auctionEndsAt := now + ONE_DAY_MS
        let profile? := findProfile db executiveUserId
        if (profile?.map (·.activeSlotId.isSome)).getD false then
          (db, [], .error "Executive already has one active slot")
        else
          let createdSlot : Slot :=
            { id := newSlotId, executiveId := executiveUserId, tier := tier,
              category := category, status := .OPEN,
              auctionEndsAt := auctionEndsAt, createdAt := now }
          let db1 := { db with slots := db.slots ++ [createdSlot] }
          let db2 :=
            match profile? with
            | none =>
              { db1 with
                profiles := db1.profiles ++
                  [{ userId := executiveUserId, inviteOnly := true,
                     activeSlotId := some newSlotId,
                     reservePrice := reservePrice, categories := categories }] }
            | some _ =>
              { db1 with
                profiles := db1.profiles.map fun p =>
                  if p.userId = executiveUserId then
                    { p with activeSlotId := some newSlotId,
                             reservePrice := reservePrice,
                             categories := categories }
                  else p }
          (db2, [.commit], .ok createdSlot)

/-- `MarketplaceService.placeBid`. `newBidId` is the `randomUUID()` bid id. -/
def placeBid (gw : GatewayCall → Bool) (pubOk : Bool) (db : DB)
    (slotId ownerUserId : Nat) (amount : Int) (now : Nat) (newBidId : Nat) :
    Tx Bid :=
  if amount ≤ 0 then
    (db, [], .error "amount must be a positive integer in cents")
  else
    match findUser db ownerUserId with
    | none => (db, [], .error "Only verified owners can place bids")
    | some owner =>
      if ¬ (owner.type = .OWNER ∧ owner.verified) then
        (db, [], .error "Only verified owners can place bids")
      else
        match findSlot db slotId with
        | none => (db, [], .error "Slot is not open for bidding")
        | some slot =>
          if slot.status ≠ .OPEN then
            (db, [], .error "Slot is not open for bidding")
          else if slot.executiveId = ownerUserId then
            (db, [], .error "Executive cannot bid on own slot")
          else if slot.auctionEndsAt ≤ now then
            (db, [], .error "Auction already ended")
          else
            let lockCall := GatewayCall.lockFunds newBidId ownerUserId amount
            if ¬ gw lockCall then
              (db, [.gateway lockCall], .error "Gateway lockFunds failed")
            else
              let createdBid : Bid :=
                { id := newBidId, slotId := slotId, ownerId := ownerUserId,
                  amount := amount, escrowStatus := .LOCKED, createdAt := now }
              let db1 := { db with bids := db.bids ++ [createdBid] }
              if pubOk then
                (db1,
                 [.gateway lockCall,
                  .broadcastBidCreated newBidId slotId ownerUserId amount,
                  .commit],
                 .ok createdBid)
              else
                (db, [.gateway lockCall], .error "Realtime publisher failed")

/-- Step 1 of `closeAuction`: the conditional update
`update slots set status = AUCTION_CLOSED
 where id = slotId and status = OPEN and auctionEndsAt <= now returning ...`.
Returns `none` when no row was affected, otherwise the updated store and
the (post-update) returned row. -/
def lockSlotForClose (db : DB) (slotId now : Nat) : Option (DB × Slot) :=
  match db.slots.find?
      (fun s => decide (s.id = slotId ∧ s.status = .OPEN ∧ s.auctionEndsAt ≤ now)) with
  | none => none
  | some s =>
    some
      ({ db with
         slots := db.slots.map fun t =>
           if t.id = slotId ∧ t.status = .OPEN ∧ t.auctionEndsAt ≤ now then
             { t with status := .AUCTION_CLOSED }
           else t },
       { s with status := .AUCTION_CLOSED })

/-- Whether the refund loop of `closeAuction` processes this bid: it skips
the winner (when there is one) and every bid not currently `LOCKED`. -/
def eligibleForRefund (skipId : Option Nat) (b : Bid) : Bool :=
  (match skipId with
   | some w => decide (b.id ≠ w)
   | none => true) && decide (b.escrowStatus = .LOCKED)

/-- The refund loop of `closeAuction` over the ordered slot bids: for each
non-skipped `LOCKED` bid, call `refundToOwner` for the full amount and mark
the row `REFUNDED`. A gateway failure throws, aborting the transaction; the
error carries the events that already happened. -/
def refundBids (gw : GatewayCall → Bool) (skipId : Option Nat) :
    List Bid → DB → List Event → Except (String × List Event) (DB × List Event)
  | [], db, tr => .ok (db, tr)
  | b :: rest, db, tr =>
    if eligibleForRefund skipId b then
      let call := GatewayCall.refundToOwner b.id b.ownerId b.amount
      if gw call then
        refundBids gw skipId rest
          (updateBidStatus db b.id .LOCKED .REFUNDED) (tr ++ [.gateway call])
      else
        .error ("Gateway refundToOwner failed", tr ++ [.gateway call])
    else
      refundBids gw skipId rest db tr

/-- `validBids.length === 1 ? winner.amount : validBids[1].amount`, with
`validBids = winner :: restValid`. -/
def clearingPriceOf (winner : Bid) (restValid : List Bid) : Int :=
  match restValid with
  | [] => winner.amount
  | second :: _ => second.amount

/-- Outcome of `closeAuction`: the `{slotId, status: VOID}` object or the
created contract row. -/
inductive CloseOutcome where
  | voided (slotId : Nat)
  | contracted (c : Contract)
deriving DecidableEq, Repr

/-- `MarketplaceService.closeAuction`. `now` is `new Date()` taken at the
start of the transaction, `newContractId` the id the store generates for an
inserted contract row. -/
def closeAuction (gw : GatewayCall → Bool) (pubOk : Bool) (db : DB)
    (slotId : Nat) (now : Nat) (newContractId : Nat) : Tx CloseOutcome :=
  match lockSlotForClose db slotId now with
  | none => (db, [], .error "Slot cannot be closed yet or is already closed")
  | some (db1, lockedSlot) =>
    match findProfile db1 lockedSlot.executiveId with
    | none => (db, [], .error "Executive profile not found")
    | some profile =>
      let slotBids := sortedSlotBids db1 slotId
      let validBids := slotBids.filter (fun b => decide (profile.reservePrice ≤ b.amount))
      match validBids with
      | [] =>
        match refundBids gw none slotBids db1 [] with
        | .error (e, tr) => (db, tr, .error e)
        | .ok (db2, tr) =>
          let db3 := setSlotStatus db2 slotId .VOID
          let db4 := clearActiveSlot db3 lockedSlot.executiveId
          if pubOk then
            (db4,
             tr ++ [.broadcastAuctionClosed slotId .VOID none none none, .commit],
             .ok (.voided slotId))
          else
            (db, tr, .error "Realtime publisher failed")
      | winner :: restValid =>
        let clearingPrice := clearingPriceOf winner restValid
        match refundBids gw (some winner.id) slotBids db1 [] with
        | .error (e, tr) => (db, tr, .error e)
        | .ok (db2, tr) =>
          let excess := winner.amount - clearingPrice
          let excessCall := GatewayCall.refundToOwner winner.id winner.ownerId excess
          if 0 < excess ∧ ¬ gw excessCall then
            (db, tr ++ [.gateway excessCall], .error "Gateway refundToOwner failed")
          else
            let tr2 := if 0 < excess then tr ++ [.gateway excessCall] else tr
            let createdContract : Contract :=
              { id := newContractId, slotId := slotId, winningBidId := winner.id,
                clearingPrice := clearingPrice, status := .ACTIVE,
                startedAt := now, deadlineAt := deadlineFromTier now lockedSlot.tier }
            let db3 := { db2 with contracts := db2.contracts ++ [createdContract] }
            let db4 := setSlotStatus db3 slotId .IN_PROGRESS
            if pubOk then
              (db4,
               tr2 ++
                 [.broadcastAuctionClosed slotId .IN_PROGRESS
                    (some newContractId) (some winner.id) (some clearingPrice),
                  .commit],
               .ok (.contracted createdContract))
            else
              (db, tr2, .error "Realtime publisher failed")

/-- The record produced by the `contracts ⋈ slots ⋈ bids` inner join used by
`completeContract` and `autoBreachContract`. -/
def joinContract (db : DB) (contractId : Nat) : Option (Contract × Slot × Bid) :=
  match findContract db contractId with
  | none => none
  | some c =>
    match findSlot db c.slotId with
    | none => none
    | some s =>
      match bidById db c.winningBidId with
      | none => none
      | some b => some (c, s, b)

/-- Return value of a successful `completeContract`. -/
structure CompletionResult where
  contractId : Nat
  clearingPrice : Int
  platformFee : Int
  netAmount : Int
deriving DecidableEq, Repr

/-- `Math.floor(clearingPrice * PLATFORM_FEE_RATE)` with
`PLATFORM_FEE_RATE = 0.12`. For every clearing price that fits the pg
`integer` column (`|p| < 2^31`) the double-precision computation of the
source returns exactly the floor of the rational `p * 12 / 100`, which is
what this definition computes (`Int.fdiv` is floor division, matching
`Math.floor` on negative values as well). -/
def platformFeeOf (clearingPrice : Int) : Int :=
  Int.fdiv (clearingPrice * 12) 100

/-- `MarketplaceService.completeContract`. -/
def completeContract (gw : GatewayCall → Bool) (db : DB)
    (contractId executiveUserId : Nat) (now : Nat) : Tx CompletionResult :=
  match joinContract db contractId with
  | none => (db, [], .error "Contract is not active")
  | some (c, slot, winningBid) =>
    if c.status ≠ .ACTIVE then
      (db, [], .error "Contract is not active")
    else if slot.executiveId ≠ executiveUserId then
      (db, [], .error "Only contract executive can mark completion")
    else if c.deadlineAt < now then
      (db, [], .error "Deadline exceeded, contract must be breached")
    else if winningBid.escrowStatus ≠ .LOCKED then
      (db, [], .error "Winning escrow is not available for release")
    else
      let platformFee := platformFeeOf c.clearingPrice
      let netAmount := c.clearingPrice - platformFee
      let call := GatewayCall.releaseToExecutive winningBid.id slot.executiveId
        netAmount platformFee
      if ¬ gw call then
        (db, [.gateway call], .error "Gateway releaseToExecutive failed")
      else
        let db1 := updateBidStatus db winningBid.id .LOCKED .RELEASED
        let db2 := setContractStatus db1 c.id .COMPLETED
        let db3 := setSlotStatus db2 slot.id .COMPLETED
        let db4 := clearActiveSlot db3 slot.executiveId
        (db4, [.gateway call, .commit],
         .ok { contractId := c.id, clearingPrice := c.clearingPrice,
               platformFee := platformFee, netAmount := netAmount })

/-- `MarketplaceService.autoBreachContract`. Returns `ok none` for the
"no action" (`null`) outcome. -/
def autoBreachContract (gw : GatewayCall → Bool) (db : DB)
    (contractId : Nat) (now : Nat) : Tx (Option Nat) :=
  match joinContract db contractId with
  | none => (db, [.commit], .ok none)
  | some (c, slot, winningBid) =>
    if c.status ≠ .ACTIVE then
      (db, [.commit], .ok none)
    else if now < c.deadlineAt then
      (db, [.commit], .ok none)
    else
      if winningBid.escrowStatus = .LOCKED then
        let call := GatewayCall.refundToOwner winningBid.id winningBid.ownerId
          c.clearingPrice
        if ¬ gw call then
          (db, [.gateway call], .error "Gateway refundToOwner failed")
        else
          let db1 := updateBidStatus db winningBid.id .LOCKED .REFUNDED
          let db2 := setContractStatus db1 c.id .BREACH
          let db3 := setSlotStatus db2 slot.id .BREACH
          let db4 := clearActiveSlot db3 slot.executiveId
          (db4, [.gateway call, .commit], .ok (some c.id))
      else
        let db2 := setContractStatus db c.id .BREACH
        let db3 := setSlotStatus db2 slot.id .BREACH
        let db4 := clearActiveSlot db3 slot.executiveId
        (db4, [.commit], .ok (some c.id))

/-! ## Generic helper lemmas -/

theorem platformFeeOf_eq_floor (p : Int) :
    platformFeeOf p = ⌊(p : ℚ) * (12 / 100)⌋ := by
  have h := Rat.floor_intCast_div_natCast (p * 12) 100
  have h2 : ((p * 12 : Int) : ℚ) / ((100 : ℕ) : ℚ) = (p : ℚ) * (12 / 100) := by
    push_cast; ring
  rw [h2] at h
  rw [platformFeeOf, h, Int.fdiv_eq_ediv _ (by norm_num)]
  rfl

theorem find?_map_keyed {α : Type} (l : List α) (p : α → Bool) (f : α → α)
    (hf : ∀ x, p (f x) = p x) : (l.map f).find? p = (l.find? p).map f := by
  induction l with
  | nil => rfl
  | cons a t ih =>
    by_cases hpa : p a = true
    · rw [List.map_cons, List.find?_cons_of_pos _ ((hf a).trans hpa),
        List.find?_cons_of_pos _ hpa, Option.map_some']
    · rw [List.map_cons, List.find?_cons_of_neg _ (by rw [hf a]; exact hpa),
        List.find?_cons_of_neg _ hpa, ih]

@[simp] theorem updateBidStatus_users (db : DB) (i : Nat) (f t : EscrowStatus) :
    (updateBidStatus db i f t).users = db.users := rfl

@[simp] theorem updateBidStatus_slots (db : DB) (i : Nat) (f t : EscrowStatus) :
    (updateBidStatus db i f t).slots = db.slots := rfl

@[simp] theorem updateBidStatus_profiles (db : DB) (i : Nat) (f t : EscrowStatus) :
    (updateBidStatus db i f t).profiles = db.profiles := rfl

@[simp] theorem updateBidStatus_contracts (db : DB) (i : Nat) (f t : EscrowStatus) :
    (updateBidStatus db i f t).contracts = db.contracts := rfl

@[simp] theorem setSlotStatus_users (db : DB) (i : Nat) (st : SlotStatus) :
    (setSlotStatus db i st).users = db.users := rfl

@[simp] theorem setSlotStatus_profiles (db : DB) (i : Nat) (st : SlotStatus) :
    (setSlotStatus db i st).profiles = db.profiles := rfl

@[simp] theorem setSlotStatus_bids (db : DB) (i : Nat) (st : SlotStatus) :
    (setSlotStatus db i st).bids = db.bids := rfl

@[simp] theorem setSlotStatus_contracts (db : DB) (i : Nat) (st : SlotStatus) :
    (setSlotStatus db i st).contracts = db.contracts := rfl

@[simp] theorem setContractStatus_users (db : DB) (i : Nat) (st : ContractStatus) :
    (setContractStatus db i st).users = db.users := rfl

@[simp] theorem setContractStatus_slots (db : DB) (i : Nat) (st : ContractStatus) :
    (setContractStatus db i st).slots = db.slots := rfl

@[simp] theorem setContractStatus_profiles (db : DB) (i : Nat) (st : ContractStatus) :
    (setContractStatus db i st).profiles = db.profiles := rfl

@[simp] theorem setContractStatus_bids (db : DB) (i : Nat) (st : ContractStatus) :
    (setContractStatus db i st).bids = db.bids := rfl

@[simp] theorem clearActiveSlot_users (db : DB) (u : Nat) :
    (clearActiveSlot db u).users = db.users := rfl

@[simp] theorem clearActiveSlot_slots (db : DB) (u : Nat) :
    (clearActiveSlot db u).slots = db.slots := rfl

@[simp] theorem clearActiveSlot_bids (db : DB) (u : Nat) :
    (clearActiveSlot db u).bids = db.bids := rfl

@[simp] theorem clearActiveSlot_contracts (db : DB) (u : Nat) :
    (clearActiveSlot db u).contracts = db.contracts := rfl

theorem bidById_updateBidStatus (db : DB) (i j : Nat) (f t : EscrowStatus) :
    bidById (updateBidStatus db i f t) j =
      (bidById db j).map
        (fun b => if b.id = i ∧ b.escrowStatus = f then { b with escrowStatus := t } else b) := by
  unfold bidById updateBidStatus
  exact find?_map_keyed db.bids _ _ (by intro x; split <;> rfl)

theorem findSlot_setSlotStatus (db : DB) (i j : Nat) (st : SlotStatus) :
    findSlot (setSlotStatus db i st) j =
      (findSlot db j).map (fun s => if s.id = i then { s with status := st } else s) := by
  unfold findSlot setSlotStatus
  exact find?_map_keyed db.slots _ _ (by intro x; split <;> rfl)

theorem findContract_setContractStatus (db : DB) (i j : Nat) (st : ContractStatus) :
    findContract (setContractStatus db i st) j =
      (findContract db j).map (fun c => if c.id = i then { c with status := st } else c) := by
  unfold findContract setContractStatus
  exact find?_map_keyed db.contracts _ _ (by intro x; split <;> rfl)

theorem findProfile_clearActiveSlot (db : DB) (u j : Nat) :
    findProfile (clearActiveSlot db u) j =
      (findProfile db j).map
        (fun p => if p.userId = u then { p with activeSlotId := none } else p) := by
  unfold findProfile clearActiveSlot
  exact find?_map_keyed db.profiles _ _ (by intro x; split <;> rfl)

theorem findUser_id {db : DB} {j : Nat} {u : User} (hfind : findUser db j = some u) :
    u.id = j := by
  unfold findUser at hfind
  simpa using List.find?_some hfind

theorem findSlot_id {db : DB} {j : Nat} {s : Slot} (hfind : findSlot db j = some s) :
    s.id = j := by
  unfold findSlot at hfind
  simpa using List.find?_some hfind

theorem findProfile_userId {db : DB} {j : Nat} {p : Profile}
    (hfind : findProfile db j = some p) : p.userId = j := by
  unfold findProfile at hfind
  simpa using List.find?_some hfind

theorem bidById_id {db : DB} {j : Nat} {b : Bid} (hfind : bidById db j = some b) :
    b.id = j := by
  unfold bidById at hfind
  simpa using List.find?_some hfind

theorem findContract_id {db : DB} {j : Nat} {c : Contract}
    (hfind : findContract db j = some c) : c.id = j := by
  unfold findContract at hfind
  simpa using List.find?_some hfind

theorem joinContract_eq_some {db : DB} {cid : Nat} {c : Contract} {s : Slot}
    {b : Bid} (h : joinContract db cid = some (c, s, b)) :
    findContract db cid = some c ∧ findSlot db c.slotId = some s ∧
      bidById db c.winningBidId = some b := by
  unfold joinContract at h
  split at h
  · simp at h
  next c1 heq1 =>
    split at h
    · simp at h
    next s1 heq2 =>
      split at h
      · simp at h
      next b1 heq3 =>
        simp only [Option.some.injEq, Prod.mk.injEq] at h
        obtain ⟨hc, hs, hb⟩ := h
        subst hc; subst hs; subst hb
        exact ⟨heq1, heq2, heq3⟩

/-- Every row of the `slots` table with this id has this status. -/
def slotStatusIs (db : DB) (i : Nat) (st : SlotStatus) : Prop :=
  ∀ s ∈ db.slots, s.id = i → s.status = st

/-- Every row of the `contracts` table with this id has this status. -/
def contractStatusIs (db : DB) (i : Nat) (st : ContractStatus) : Prop :=
  ∀ c ∈ db.contracts, c.id = i → c.status = st

/-- Every profile row of this user has a null `activeSlotId`. -/
def profileCleared (db : DB) (u : Nat) : Prop :=
  ∀ p ∈ db.profiles, p.userId = u → p.activeSlotId = none

instance (db : DB) (i : Nat) (st : SlotStatus) : Decidable (slotStatusIs db i st) := by
  unfold slotStatusIs; infer_instance

instance (db : DB) (i : Nat) (st : ContractStatus) : Decidable (contractStatusIs db i st) := by
  unfold contractStatusIs; infer_instance

instance (db : DB) (u : Nat) : Decidable (profileCleared db u) := by
  unfold profileCleared; infer_instance

/-- Marks every `LOCKED` bid row whose id is in `targets` as `REFUNDED`. -/
def refundMark (targets : List Nat) (b : Bid) : Bid :=
  if b.id ∈ targets ∧ b.escrowStatus = .LOCKED then { b with escrowStatus := .REFUNDED }
  else b

theorem refundMark_cons (i : Nat) (t : List Nat) (b : Bid) :
    refundMark t
      (if b.id = i ∧ b.escrowStatus = .LOCKED then { b with escrowStatus := .REFUNDED }
       else b) =
      refundMark (i :: t) b := by
  unfold refundMark
  by_cases h1 : b.id = i ∧ b.escrowStatus = .LOCKED
  · rw [if_pos h1, if_neg (by simp), if_pos ⟨h1.1 ▸ List.mem_cons_self _ _, h1.2⟩]
  · rw [if_neg h1]
    by_cases h2 : b.id ∈ t ∧ b.escrowStatus = .LOCKED
    · rw [if_pos h2, if_pos ⟨List.mem_cons_of_mem _ h2.1, h2.2⟩]
    · rw [if_neg h2, if_neg ?_]
      rintro ⟨hmem, hlk⟩
      rcases List.mem_cons.mp hmem with he | ht
      · exact h1 ⟨he, hlk⟩
      · exact h2 ⟨ht, hlk⟩

/-- The sequential per-bid escrow updates of the refund loop act on the
`bids` table as one bulk `refundMark`. -/
theorem foldl_updateBid_bids (l : List Bid) (db : DB) :
    (l.foldl (fun d b => updateBidStatus d b.id .LOCKED .REFUNDED) db).bids =
      db.bids.map (refundMark (l.map (·.id))) := by
  induction l generalizing db with
  | nil =>
    simp only [List.foldl_nil, List.map_nil]
    have h2 : ∀ b : Bid, refundMark [] b = b := by
      intro b; unfold refundMark; rw [if_neg (by simp)]
    rw [List.map_congr_left fun b _ => h2 b]
    simp
  | cons a t ih =>
    rw [List.foldl_cons, ih, List.map_cons]
    show (db.bids.map fun b =>
        if b.id = a.id ∧ b.escrowStatus = .LOCKED then { b with escrowStatus := .REFUNDED }
        else b).map (refundMark (t.map (·.id))) = _
    rw [List.map_map]
    refine List.map_congr_left fun b _ => ?_
    simp only [Function.comp_apply]
    exact refundMark_cons a.id (t.map (fun x => x.id)) b

theorem foldl_updateBid_users (l : List Bid) (db : DB) :
    (l.foldl (fun d b => updateBidStatus d b.id .LOCKED .REFUNDED) db).users = db.users := by
  induction l generalizing db with
  | nil => rfl
  | cons a t ih => rw [List.foldl_cons, ih]; rfl

theorem foldl_updateBid_slots (l : List Bid) (db : DB) :
    (l.foldl (fun d b => updateBidStatus d b.id .LOCKED .REFUNDED) db).slots = db.slots := by
  induction l generalizing db with
  | nil => rfl
  | cons a t ih => rw [List.foldl_cons, ih]; rfl

theorem foldl_updateBid_profiles (l : List Bid) (db : DB) :
    (l.foldl (fun d b => updateBidStatus d b.id .LOCKED .REFUNDED) db).profiles =
      db.profiles := by
  induction l generalizing db with
  | nil => rfl
  | cons a t ih => rw [List.foldl_cons, ih]; rfl

theorem foldl_updateBid_contracts (l : List Bid) (db : DB) :
    (l.foldl (fun d b => updateBidStatus d b.id .LOCKED .REFUNDED) db).contracts =
      db.contracts := by
  induction l generalizing db with
  | nil => rfl
  | cons a t ih => rw [List.foldl_cons, ih]; rfl

/-- Canonical form of a successful refund loop: the post-state is the bulk
fold of the escrow updates over the eligible bids and the trace extension
is exactly one full-amount `refundToOwner` call per eligible bid, in list
order. -/
theorem refundBids_ok (gw : GatewayCall → Bool) (skip : Option Nat)
    (l : List Bid) (db : DB) (tr : List Event) (db2 : DB) (tr2 : List Event)
    (h : refundBids gw skip l db tr = .ok (db2, tr2)) :
    db2 = (l.filter (eligibleForRefund skip)).foldl
        (fun d b => updateBidStatus d b.id .LOCKED .REFUNDED) db ∧
    tr2 = tr ++ (l.filter (eligibleForRefund skip)).map
        (fun b => .gateway (.refundToOwner b.id b.ownerId b.amount)) := by
  induction l generalizing db tr with
  | nil =>
    unfold refundBids at h
    simp only [Except.ok.injEq, Prod.mk.injEq] at h
    simp [h.1.symm, h.2.symm]
  | cons a t ih =>
    unfold refundBids at h
    by_cases hel : eligibleForRefund skip a = true
    · rw [if_pos hel] at h
      by_cases hgw : gw (.refundToOwner a.id a.ownerId a.amount) = true
      · rw [if_pos hgw] at h
        obtain ⟨h1, h2⟩ := ih _ _ h
        rw [List.filter_cons_of_pos hel]
        constructor
        · rw [List.foldl_cons]; exact h1
        · rw [h2, List.map_cons]; simp
      · rw [if_neg hgw] at h
        simp at h
    · rw [if_neg hel] at h
      rw [List.filter_cons_of_neg (by simpa using hel)]
      exact ih _ _ h

/-- A successful refund loop does not touch the other four tables. -/
theorem refundBids_ok_tables (gw : GatewayCall → Bool) (skip : Option Nat)
    (l : List Bid) (db : DB) (tr : List Event) (db2 : DB) (tr2 : List Event)
    (h : refundBids gw skip l db tr = .ok (db2, tr2)) :
    db2.users = db.users ∧ db2.slots = db.slots ∧ db2.profiles = db.profiles ∧
      db2.contracts = db.contracts := by
  obtain ⟨h1, -⟩ := refundBids_ok gw skip l db tr db2 tr2 h
  subst h1
  exact ⟨foldl_updateBid_users _ _, foldl_updateBid_slots _ _,
    foldl_updateBid_profiles _ _, foldl_updateBid_contracts _ _⟩

theorem lockSlotForClose_none {db : DB} {slotId now : Nat}
    (h : ∀ s ∈ db.slots, s.id = slotId → s.status ≠ .OPEN) :
    lockSlotForClose db slotId now = none := by
  unfold lockSlotForClose
  rw [List.find?_eq_none.mpr]
  intro s hmem
  simp only [decide_eq_true_eq, not_and]
  intro hid hst
  exact absurd hst (h s hmem hid)

theorem setSlotStatus_status {db : DB} {i : Nat} {st : SlotStatus} :
    slotStatusIs (setSlotStatus db i st) i st := by
  intro s hmem hid
  unfold setSlotStatus at hmem
  simp only [List.mem_map] at hmem
  obtain ⟨o, _, rfl⟩ := hmem
  by_cases ho : o.id = i
  · rw [if_pos ho]
  · rw [if_neg ho] at hid ⊢
    exact absurd hid ho

theorem find?_key_eq_of_mem {α : Type} (key : α → Nat) (l : List α)
    (hN : (l.map key).Nodup) (x : α) (hmem : x ∈ l) :
    l.find? (fun y => decide (key y = key x)) = some x := by
  induction l with
  | nil => exact absurd hmem (List.not_mem_nil x)
  | cons a t ih =>
    rw [List.map_cons, List.nodup_cons] at hN
    rcases List.mem_cons.mp hmem with rfl | hx
    · exact List.find?_cons_of_pos _ (by simp)
    · by_cases hk : key a = key x
      · exfalso
        exact hN.1 (hk ▸ List.mem_map_of_mem key hx)
      · rw [List.find?_cons_of_neg _ (by simpa using hk)]
        exact ih hN.2 hx

theorem filter_key_eq_of_mem {α : Type} (key : α → Nat) (l : List α)
    (hN : (l.map key).Nodup) (x : α) (hmem : x ∈ l) :
    l.filter (fun y => decide (key y = key x)) = [x] := by
  induction l with
  | nil => exact absurd hmem (List.not_mem_nil x)
  | cons a t ih =>
    rw [List.map_cons, List.nodup_cons] at hN
    rcases List.mem_cons.mp hmem with rfl | hx
    · rw [List.filter_cons_of_pos (by simp), List.filter_eq_nil.mpr]
      intro y hy
      simp only [decide_eq_true_eq]
      intro hk
      exact hN.1 (hk ▸ List.mem_map_of_mem key hy)
    · by_cases hk : key a = key x
      · exact absurd (hk ▸ List.mem_map_of_mem key hx) hN.1
      · rw [List.filter_cons_of_neg (by simpa using hk)]
        exact ih hN.2 hx

theorem eq_of_key_mem_nodup {α : Type} (key : α → Nat) {l : List α}
    (hN : (l.map key).Nodup) {a b : α} (ha : a ∈ l) (hb : b ∈ l)
    (hk : key a = key b) : a = b := by
  have h1 := find?_key_eq_of_mem key l hN a ha
  have h2 := find?_key_eq_of_mem key l hN b hb
  rw [show (fun y => decide (key y = key a)) = (fun y => decide (key y = key b))
    from funext fun y => by rw [hk]] at h1
  rw [h1] at h2
  exact Option.some.injEq _ _ ▸ h2

/-- Inversion of the step-1 conditional update of `closeAuction`: a row was
found (`OPEN` and due) and all matching rows were flipped to
`AUCTION_CLOSED`; the other tables are untouched. -/
theorem lockSlotForClose_some {db : DB} {slotId now : Nat} {db0 : DB}
    {ls : Slot} (h : lockSlotForClose db slotId now = some (db0, ls)) :
    ∃ s0 ∈ db.slots, s0.id = slotId ∧ s0.status = .OPEN ∧
      s0.auctionEndsAt ≤ now ∧ ls = { s0 with status := .AUCTION_CLOSED } ∧
      db0.users = db.users ∧ db0.profiles = db.profiles ∧
      db0.bids = db.bids ∧ db0.contracts = db.contracts ∧
      db0.slots = db.slots.map (fun t =>
        if t.id = slotId ∧ t.status = .OPEN ∧ t.auctionEndsAt ≤ now then
          { t with status := .AUCTION_CLOSED }
        else t) := by
  unfold lockSlotForClose at h
  split at h
  · exact Option.noConfusion h
  next s0 heq =>
    rw [Option.some.injEq, Prod.mk.injEq] at h
    obtain ⟨hdb0, hls⟩ := h
    have hmem := List.mem_of_find?_eq_some heq
    have hprops := List.find?_some heq
    simp only [decide_eq_true_eq] at hprops
    exact ⟨s0, hmem, hprops.1, hprops.2.1, hprops.2.2, hls.symm,
      by rw [← hdb0], by rw [← hdb0], by rw [← hdb0], by rw [← hdb0],
      by rw [← hdb0]⟩

theorem sortedSlotBids_congr {db0 db : DB} (hb : db0.bids = db.bids)
    (slotId : Nat) : sortedSlotBids db0 slotId = sortedSlotBids db slotId := by
  unfold sortedSlotBids
  rw [hb]

theorem sortedSlotBids_perm (db : DB) (slotId : Nat) :
    (sortedSlotBids db slotId).Perm
      (db.bids.filter (fun b => decide (b.slotId = slotId))) :=
  List.perm_insertionSort bidLE _

theorem mem_sortedSlotBids {db : DB} {slotId : Nat} {b : Bid} :
    b ∈ sortedSlotBids db slotId ↔ b ∈ db.bids ∧ b.slotId = slotId := by
  rw [(sortedSlotBids_perm db slotId).mem_iff, List.mem_filter]
  simp

theorem nodup_sortedSlotBids {db : DB} (slotId : Nat)
    (hN : (db.bids.map (fun b => b.id)).Nodup) :
    ((sortedSlotBids db slotId).map (fun b => b.id)).Nodup := by
  have hperm := (sortedSlotBids_perm db slotId).map (fun b => b.id)
  rw [hperm.nodup_iff]
  exact hN.sublist ((List.filter_sublist db.bids).map _)

theorem profileCleared_clearActiveSlot (db : DB) (u : Nat) :
    profileCleared (clearActiveSlot db u) u := by
  intro p hmem hid
  unfold clearActiveSlot at hmem
  simp only [List.mem_map] at hmem
  obtain ⟨o, _, rfl⟩ := hmem
  by_cases ho : o.userId = u
  · rw [if_pos ho]
  · rw [if_neg ho] at hid ⊢
    exact absurd hid ho

/-- Whether an event is a gateway `refundToOwner` call with this reference
id. -/
def isRefundFor (i : Nat) : Event → Bool
  | .gateway (.refundToOwner r _ _) => decide (r = i)
  | _ => false

theorem bidLE_ne_imp_prec {a b : Bid} (hle : bidLE a b) (hne : a.id ≠ b.id) :
    bidPrec a b := by
  unfold bidLE at hle
  unfold bidPrec
  rcases hle with h1 | ⟨h1, h2 | ⟨h2, h3⟩⟩
  · exact Or.inl h1
  · exact Or.inr ⟨h1, Or.inl h2⟩
  · exact Or.inr ⟨h1, Or.inr ⟨h2, lt_of_le_of_ne h3 hne⟩⟩

theorem bidPrec_asymm {a b : Bid} (h1 : bidPrec a b) (h2 : bidPrec b a) :
    False := by
  unfold bidPrec at h1 h2
  rcases h1 with h1 | ⟨h1a, h1 | ⟨h1c, h1i⟩⟩ <;>
    rcases h2 with h2 | ⟨h2a, h2 | ⟨h2c, h2i⟩⟩ <;> omega

/-! ## Concrete sample data used by the closed witness theorems -/

/-- A verified owner. -/
def ownerUser (i : Nat) : User := { id := i, type := .OWNER, verified := true }

/-- A store with one open slot (id 10, issuer 1, reserve 60) and the four
bids of the spec's Vickrey example: amounts 100, 70, 70, 50. -/
def sampleDB : DB :=
  { users := [{ id := 1, type := .EXECUTIVE, verified := true },
              ownerUser 2, ownerUser 3, ownerUser 4],
    slots := [{ id := 10, executiveId := 1, tier := .days7, category := "backend",
                status := .OPEN, auctionEndsAt := 100, createdAt := 0 }],
    profiles := [{ userId := 1, inviteOnly := true, activeSlotId := some 10,
                   reservePrice := 60, categories := ["backend"] }],
    bids := [{ id := 21, slotId := 10, ownerId := 2, amount := 100,
               escrowStatus := .LOCKED, createdAt := 10 },
             { id := 22, slotId := 10, ownerId := 3, amount := 70,
               escrowStatus := .LOCKED, createdAt := 20 },
             { id := 23, slotId := 10, ownerId := 4, amount := 70,
               escrowStatus := .LOCKED, createdAt := 15 },
             { id := 24, slotId := 10, ownerId := 2, amount := 50,
               escrowStatus := .LOCKED, createdAt := 5 }],
    contracts := [] }

/-- A gateway oracle on which every escrow call succeeds. -/
def gwOk : GatewayCall → Bool := fun _ => true

/-- Slot row of `contractDB`. -/
def cSlot : Slot :=
  { id := 10, executiveId := 1, tier := .days7, category := "backend",
    status := .IN_PROGRESS, auctionEndsAt := 100, createdAt := 0 }

/-- Winning bid row of `contractDB`. -/
def cBid : Bid :=
  { id := 21, slotId := 10, ownerId := 2, amount := 100000,
    escrowStatus := .LOCKED, createdAt := 10 }

/-- Contract row of `contractDB`. -/
def cContract : Contract :=
  { id := 77, slotId := 10, winningBidId := 21, clearingPrice := 100000,
    status := .ACTIVE, startedAt := 100, deadlineAt := 1000 }

/-- A store holding one active contract (id 77, clearing price 100000,
deadline 1000) for slot 10 of executive 1, won by bid 21 of owner 2. -/
def contractDB : DB :=
  { users := [{ id := 1, type := .EXECUTIVE, verified := true }, ownerUser 2],
    slots := [cSlot],
    profiles := [{ userId := 1, inviteOnly := true, activeSlotId := some 10,
                   reservePrice := 60, categories := [] }],
    bids := [cBid],
    contracts := [cContract] }

/-! ## C6: platform fee and net amount at completion -/

/-- **C6.** For every successful contract completion, the platform fee
equals `⌊clearingPrice · 0.12⌋`, the net amount released to the issuer by
the gateway `releaseToExecutive` call equals `clearingPrice − platformFee`,
and in particular a clearing price of 100000 yields fee 12000 and net
88000. (The double-precision product of the source is exact on the pg
`integer` range, as noted at `platformFeeOf`.) -/
theorem C6_completion_fee (gw : GatewayCall → Bool) (db : DB)
    (contractId executiveUserId now : Nat) (db2 : DB) (tr : List Event)
    (r : CompletionResult)
    (h : completeContract gw db contractId executiveUserId now = (db2, tr, .ok r)) :
    r.platformFee = ⌊(r.clearingPrice : ℚ) * (12 / 100)⌋ ∧
    r.netAmount = r.clearingPrice - r.platformFee ∧
    (∃ refId exId,
      tr = [.gateway (.releaseToExecutive refId exId r.netAmount r.platformFee),
            .commit]) ∧
    (r.clearingPrice = 100000 → r.platformFee = 12000 ∧ r.netAmount = 88000) := by
  simp only [completeContract] at h
  split at h
  · simp at h
  next c slot wbid heq =>
    split at h
    · simp at h
    split at h
    · simp at h
    split at h
    · simp at h
    split at h
    · simp at h
    split at h
    · simp at h
    rw [Prod.mk.injEq, Prod.mk.injEq] at h
    obtain ⟨hdb, htr, hr⟩ := h
    rw [Except.ok.injEq] at hr
    subst hr
    refine ⟨platformFeeOf_eq_floor _, rfl, ⟨wbid.id, slot.executiveId, htr.symm⟩, ?_⟩
    intro hcp
    have hcp2 : c.clearingPrice = 100000 := hcp
    constructor
    · show platformFeeOf c.clearingPrice = 12000
      rw [hcp2]; decide
    · show c.clearingPrice - platformFeeOf c.clearingPrice = 88000
      rw [hcp2]; decide

/-- Closed instance of `C6_completion_fee`: completing the concrete
contract of `contractDB` (clearing price 100000) yields fee 12000 and net
88000. -/
theorem C6_completion_fee_witness :
    ({ contractId := 77, clearingPrice := 100000, platformFee := 12000,
       netAmount := 88000 } : CompletionResult).platformFee =
      ⌊(({ contractId := 77, clearingPrice := 100000, platformFee := 12000,
           netAmount := 88000 } : CompletionResult).clearingPrice : ℚ) * (12 / 100)⌋ ∧
    ({ contractId := 77, clearingPrice := 100000, platformFee := 12000,
       netAmount := 88000 } : CompletionResult).netAmount =
      ({ contractId := 77, clearingPrice := 100000, platformFee := 12000,
         netAmount := 88000 } : CompletionResult).clearingPrice -
      ({ contractId := 77, clearingPrice := 100000, platformFee := 12000,
         netAmount := 88000 } : CompletionResult).platformFee ∧
    (∃ refId exId,
      [Event.gateway (.releaseToExecutive 21 1 88000 12000), Event.commit] =
        [Event.gateway
          (.releaseToExecutive refId exId
            ({ contractId := 77, clearingPrice := 100000, platformFee := 12000,
               netAmount := 88000 } : CompletionResult).netAmount
            ({ contractId := 77, clearingPrice := 100000, platformFee := 12000,
               netAmount := 88000 } : CompletionResult).platformFee),
         Event.commit]) ∧
    (({ contractId := 77, clearingPrice := 100000, platformFee := 12000,
        netAmount := 88000 } : CompletionResult).clearingPrice = 100000 →
      ({ contractId := 77, clearingPrice := 100000, platformFee := 12000,
         netAmount := 88000 } : CompletionResult).platformFee = 12000 ∧
      ({ contractId := 77, clearingPrice := 100000, platformFee := 12000,
         netAmount := 88000 } : CompletionResult).netAmount = 88000) :=
  C6_completion_fee gwOk contractDB 77 1 500
    ((completeContract gwOk contractDB 77 1 500).1)
    [Event.gateway (.releaseToExecutive 21 1 88000 12000), Event.commit]
    { contractId := 77, clearingPrice := 100000, platformFee := 12000,
      netAmount := 88000 }
    (by rfl)

/-! ## C7: completion after the deadline -/

/-- **C7.** Completing a contract after its `deadlineAt` has passed
(`deadlineAt < now`, matching the source's strict
`now.getTime() > record.deadlineAt.getTime()` and the spec's "current time
is at or before `deadlineAt`" precondition) is rejected with an error
distinct from the contract-not-active error, the store is returned
unchanged and no gateway call is made (empty effect trace). The hypotheses
only require the joined contract row to be `ACTIVE`; whether or not the
caller is the right executive, the rejection is a different error and
mutates nothing. -/
theorem C7_completion_after_deadline_rejected (gw : GatewayCall → Bool)
    (db : DB) (contractId executiveUserId now : Nat)
    (c : Contract) (slot : Slot) (wbid : Bid)
    (hj : joinContract db contractId = some (c, slot, wbid))
    (hact : c.status = .ACTIVE) (hdl : c.deadlineAt < now) :
    ∃ e, completeContract gw db contractId executiveUserId now = (db, [], .error e) ∧
      e ≠ "Contract is not active" := by
  by_cases hex : slot.executiveId = executiveUserId
  · refine ⟨"Deadline exceeded, contract must be breached", ?_, by decide⟩
    simp [completeContract, hj, hact, hex, hdl]
  · refine ⟨"Only contract executive can mark completion", ?_, by decide⟩
    simp [completeContract, hj, hact, hex, hdl]

/-- Closed instance of `C7_completion_after_deadline_rejected`: completing
contract 77 of `contractDB` at time 2000 (deadline 1000) is rejected
without effects. -/
theorem C7_completion_after_deadline_rejected_witness :
    ∃ e, completeContract gwOk contractDB 77 1 2000 = (contractDB, [], .error e) ∧
      e ≠ "Contract is not active" :=
  C7_completion_after_deadline_rejected gwOk contractDB 77 1 2000
    cContract cSlot cBid (by rfl) (by rfl) (by decide)

/-! ## C8: automatic breach -/

/-- **C8.** Auto-breach (1) returns "no action" (`ok none`, not an error)
with an unchanged store and no gateway call whenever the contract record is
not `ACTIVE` or its deadline is still in the future
(`now < deadlineAt`; the source breaches as soon as `deadlineAt ≤ now`,
matching the sweep's `lte` convention for a passed deadline); (2) when the
contract is `ACTIVE` with `deadlineAt ≤ now` and the winning bid still
`LOCKED`, it refunds the full clearing price to the winning bidder, marks
that bid `REFUNDED`, sets contract and slot status to `BREACH`, clears the
issuer's `activeSlotId`, and (3) a repeated call on the resulting store is
a no-op returning "no action". -/
theorem C8_auto_breach :
    (∀ (gw : GatewayCall → Bool) (db : DB) (cid now : Nat),
      (∀ c slot wbid, joinContract db cid = some (c, slot, wbid) →
        c.status ≠ .ACTIVE ∨ now < c.deadlineAt) →
      autoBreachContract gw db cid now = (db, [.commit], .ok none)) ∧
    (∀ (gw : GatewayCall → Bool) (db : DB) (cid now : Nat)
        (c : Contract) (slot : Slot) (wbid : Bid),
      joinContract db cid = some (c, slot, wbid) →
      c.status = .ACTIVE → c.deadlineAt ≤ now →
      wbid.escrowStatus = .LOCKED →
      gw (.refundToOwner wbid.id wbid.ownerId c.clearingPrice) = true →
      ∃ db2,
        autoBreachContract gw db cid now =
          (db2,
           [.gateway (.refundToOwner wbid.id wbid.ownerId c.clearingPrice), .commit],
           .ok (some c.id)) ∧
        bidById db2 wbid.id = some { wbid with escrowStatus := .REFUNDED } ∧
        contractStatusIs db2 c.id .BREACH ∧
        slotStatusIs db2 slot.id .BREACH ∧
        profileCleared db2 slot.executiveId ∧
        (∀ (gw2 : GatewayCall → Bool) (now2 : Nat),
          autoBreachContract gw2 db2 cid now2 = (db2, [.commit], .ok none))) := by
  constructor
  · intro gw db cid now h
    unfold autoBreachContract
    rcases hj : joinContract db cid with _ | ⟨c, slot, wbid⟩
    · rfl
    · rcases h c slot wbid hj with hna | hna
      · simp [hna]
      · have hc : ¬ c.status ≠ ContractStatus.ACTIVE ∨ True := Or.inr trivial
        by_cases hact : c.status = ContractStatus.ACTIVE
        · simp [hact, hna]
        · simp [hact]
  · intro gw db cid now c slot wbid hj hact hdl hlocked hgw
    obtain ⟨hfc, hfs, hfb⟩ := joinContract_eq_some hj
    have hcid : c.id = cid := findContract_id hfc
    have hbid : wbid.id = c.winningBidId := bidById_id hfb
    have hrun :
        autoBreachContract gw db cid now =
          (clearActiveSlot
            (setSlotStatus
              (setContractStatus (updateBidStatus db wbid.id .LOCKED .REFUNDED)
                c.id .BREACH)
              slot.id .BREACH)
            slot.executiveId,
           [.gateway (.refundToOwner wbid.id wbid.ownerId c.clearingPrice), .commit],
           .ok (some c.id)) := by
      simp [autoBreachContract, hj, hact, Nat.not_lt.mpr hdl, hlocked, hgw]
    refine ⟨_, hrun, ?_, ?_, ?_, ?_, ?_⟩
    · show bidById (updateBidStatus db wbid.id .LOCKED .REFUNDED) wbid.id =
        some { wbid with escrowStatus := .REFUNDED }
      rw [bidById_updateBidStatus]
      rw [hbid, hfb]
      simp [hlocked, hbid]
    · intro c2 hmem hid
      simp only [clearActiveSlot_contracts, setSlotStatus_contracts] at hmem
      unfold setContractStatus at hmem
      simp only [updateBidStatus_contracts, List.mem_map] at hmem
      obtain ⟨orig, _, rfl⟩ := hmem
      split
      · rfl
      · next hne =>
        exfalso
        revert hid
        split
        · intro hid; exact hne hid
        · intro hid; exact hne hid
    · intro s2 hmem hid
      unfold clearActiveSlot setSlotStatus at hmem
      simp only [List.mem_map] at hmem
      obtain ⟨orig, _, rfl⟩ := hmem
      split
      · rfl
      · next hne =>
        exfalso
        revert hid
        split
        · intro hid; exact hne hid
        · intro hid; exact hne hid
    · intro p hmem hid
      unfold clearActiveSlot at hmem
      simp only [List.mem_map] at hmem
      obtain ⟨orig, _, rfl⟩ := hmem
      split
      · rfl
      · next hne =>
        exfalso
        revert hid
        split
        · intro hid; exact hne hid
        · intro hid; exact hne hid
    · intro gw2 now2
      have hfc2 :
          findContract
            (clearActiveSlot
              (setSlotStatus
                (setContractStatus (updateBidStatus db wbid.id .LOCKED .REFUNDED)
                  c.id .BREACH)
                slot.id .BREACH)
              slot.executiveId) cid =
            some { c with status := .BREACH } := by
        unfold findContract clearActiveSlot setSlotStatus setContractStatus
        simp only [updateBidStatus_contracts]
        rw [find?_map_keyed db.contracts _ _ (by intro x; split <;> rfl)]
        unfold findContract at hfc
        rw [hfc]
        simp [hcid]
      unfold autoBreachContract
      rcases hj2 : joinContract
          (clearActiveSlot
            (setSlotStatus
              (setContractStatus (updateBidStatus db wbid.id .LOCKED .REFUNDED)
                c.id .BREACH)
              slot.id .BREACH)
            slot.executiveId) cid with _ | ⟨c2, s2, b2⟩
      · rfl
      · obtain ⟨hfc2b, _, _⟩ := joinContract_eq_some hj2
        rw [hfc2] at hfc2b
        have hc2 : c2 = { c with status := .BREACH } := by
          injection hfc2b.symm
        subst hc2
        simp

/-- Closed instance of `C8_auto_breach`: breaching contract 77 of
`contractDB` at time 2000 refunds the winner and transitions to `BREACH`,
and a second call is a no-op. -/
theorem C8_auto_breach_witness :
    ∃ db2,
      autoBreachContract gwOk contractDB 77 2000 =
        (db2,
         [.gateway (.refundToOwner cBid.id cBid.ownerId cContract.clearingPrice),
          .commit],
         .ok (some cContract.id)) ∧
      bidById db2 cBid.id = some { cBid with escrowStatus := .REFUNDED } ∧
      contractStatusIs db2 cContract.id .BREACH ∧
      slotStatusIs db2 cSlot.id .BREACH ∧
      profileCleared db2 cSlot.executiveId ∧
      (∀ (gw2 : GatewayCall → Bool) (now2 : Nat),
        autoBreachContract gw2 db2 77 now2 = (db2, [.commit], .ok none)) :=
  C8_auto_breach.2 gwOk contractDB 77 2000 cContract cSlot cBid
    (by rfl) (by rfl) (by decide) (by rfl) (by rfl)

/-! ## C2: auction close is idempotent -/

/-- After a successful close, every `slots` row carrying the closed slot's
id has left the `OPEN` status (it is `VOID` or `IN_PROGRESS`). -/
theorem closeAuction_ok_not_open (gw : GatewayCall → Bool) (pubOk : Bool)
    (db : DB) (slotId now cid : Nat) (db1 : DB) (tr : List Event)
    (res : CloseOutcome)
    (h : closeAuction gw pubOk db slotId now cid = (db1, tr, .ok res)) :
    ∀ s ∈ db1.slots, s.id = slotId → s.status ≠ .OPEN := by
  simp only [closeAuction] at h
  split at h
  · simp at h
  next db0 lockedSlot heqLock =>
    split at h
    · simp at h
    next profile heqProf =>
      split at h
      · -- no valid bids: VOID outcome
        split at h
        · simp at h
        next db2 tr0 heqRef =>
          split at h
          · rw [Prod.mk.injEq, Prod.mk.injEq] at h
            obtain ⟨hdb1, -, -⟩ := h
            subst hdb1
            intro s hmem hid
            rw [clearActiveSlot_slots] at hmem
            rw [setSlotStatus_status s hmem hid]
            simp
          · simp at h
      · -- winner: IN_PROGRESS outcome
        split at h
        · simp at h
        next db2 tr0 heqRef =>
          split at h
          · simp at h
          · split at h
            · rw [Prod.mk.injEq, Prod.mk.injEq] at h
              obtain ⟨hdb1, -, -⟩ := h
              subst hdb1
              intro s hmem hid
              rw [setSlotStatus_status s hmem hid]
              simp
            · simp at h

/-- **C2.** Auction close performs work only under the atomic OPEN-and-due
guard, and is idempotent: (1) when no `slots` row with the target id is
`OPEN` with `auctionEndsAt ≤ now`, the close fails with the "not closable"
error, returns the store unchanged and performs no external effect; (2)
after a successful close, any second close of the same slot — at any later
time, with any gateway or publisher — fails with the "not closable" error,
changes nothing and performs no refunds and creates no contract (unchanged
store, empty effect trace). -/
theorem C2_close_idempotent :
    (∀ (gw : GatewayCall → Bool) (pubOk : Bool) (db : DB) (slotId now cid : Nat),
      (¬ ∃ s ∈ db.slots, s.id = slotId ∧ s.status = .OPEN ∧ s.auctionEndsAt ≤ now) →
      closeAuction gw pubOk db slotId now cid =
        (db, [], .error "Slot cannot be closed yet or is already closed")) ∧
    (∀ (gw : GatewayCall → Bool) (pubOk : Bool) (db : DB) (slotId now cid : Nat)
        (db1 : DB) (tr : List Event) (res : CloseOutcome),
      closeAuction gw pubOk db slotId now cid = (db1, tr, .ok res) →
      ∀ (gw2 : GatewayCall → Bool) (pubOk2 : Bool) (now2 cid2 : Nat),
        closeAuction gw2 pubOk2 db1 slotId now2 cid2 =
          (db1, [], .error "Slot cannot be closed yet or is already closed")) := by
  constructor
  · intro gw pubOk db slotId now cid hno
    have hlock : lockSlotForClose db slotId now = none := by
      unfold lockSlotForClose
      rw [List.find?_eq_none.mpr]
      intro s hmem
      simp only [decide_eq_true_eq]
      intro hs
      exact hno ⟨s, hmem, hs⟩
    unfold closeAuction
    rw [hlock]
  · intro gw pubOk db slotId now cid db1 tr res h gw2 pubOk2 now2 cid2
    have hno := closeAuction_ok_not_open gw pubOk db slotId now cid db1 tr res h
    have hlock : lockSlotForClose db1 slotId now2 = none := lockSlotForClose_none hno
    unfold closeAuction
    rw [hlock]

/-- Closed instance of `C2_close_idempotent`: closing slot 10 of `sampleDB`
succeeds once, and the immediate second close fails with the "not closable"
error and no effects. -/
theorem C2_close_idempotent_witness :
    closeAuction gwOk true (closeAuction gwOk true sampleDB 10 100 77).1 10 200 78 =
      ((closeAuction gwOk true sampleDB 10 100 77).1, [],
       .error "Slot cannot be closed yet or is already closed") :=
  C2_close_idempotent.2 gwOk true sampleDB 10 100 77
    (closeAuction gwOk true sampleDB 10 100 77).1
    (closeAuction gwOk true sampleDB 10 100 77).2.1
    (.contracted
      { id := 77, slotId := 10, winningBidId := 21, clearingPrice := 70,
        status := .ACTIVE, startedAt := 100,
        deadlineAt := 100 + 7 * ONE_DAY_MS })
    (by rfl) gwOk true 200 78

/-! ## C9: bid placement failure atomicity -/

/-- **C9.** (1) Any precondition violation of bid placement — bidder
missing, wrong kind or unverified, slot missing or not `OPEN`, auction
already ended, or self-bid — aborts with an error, an unchanged store (no
bid row persisted) and an empty effect trace (no gateway call). (2) If all
preconditions hold but the gateway `lockFunds` call fails, the operation
aborts with the propagated gateway failure, the store is unchanged (no bid
row), and the only external effect is the failed lock call. -/
theorem C9_place_bid_aborts :
    (∀ (gw : GatewayCall → Bool) (pubOk : Bool) (db : DB)
        (slotId ownerUserId : Nat) (amount : Int) (now bidId : Nat),
      (findUser db ownerUserId = none ∨
       (∃ u, findUser db ownerUserId = some u ∧ ¬ (u.type = .OWNER ∧ u.verified)) ∨
       findSlot db slotId = none ∨
       (∃ s, findSlot db slotId = some s ∧ s.status ≠ .OPEN) ∨
       (∃ s, findSlot db slotId = some s ∧ s.executiveId = ownerUserId) ∨
       (∃ s, findSlot db slotId = some s ∧ s.auctionEndsAt ≤ now)) →
      ∃ e, placeBid gw pubOk db slotId ownerUserId amount now bidId =
        (db, [], .error e)) ∧
    (∀ (gw : GatewayCall → Bool) (pubOk : Bool) (db : DB)
        (slotId ownerUserId : Nat) (amount : Int) (now bidId : Nat)
        (u : User) (s : Slot),
      0 < amount →
      findUser db ownerUserId = some u → u.type = .OWNER → u.verified = true →
      findSlot db slotId = some s → s.status = .OPEN →
      s.executiveId ≠ ownerUserId → now < s.auctionEndsAt →
      gw (.lockFunds bidId ownerUserId amount) = false →
      placeBid gw pubOk db slotId ownerUserId amount now bidId =
        (db, [.gateway (.lockFunds bidId ownerUserId amount)],
         .error "Gateway lockFunds failed")) := by
  constructor
  · intro gw pubOk db slotId ownerUserId amount now bidId hviol
    by_cases ha : amount ≤ 0
    · exact ⟨_, by simp only [placeBid, if_pos ha]; rfl⟩
    rcases hu : findUser db ownerUserId with _ | u
    · exact ⟨_, by simp only [placeBid, if_neg ha, hu]; rfl⟩
    by_cases huv : ¬ (u.type = .OWNER ∧ u.verified = true)
    · exact ⟨_, by simp only [placeBid, if_neg ha, hu]; rw [if_pos huv]⟩
    rcases hs : findSlot db slotId with _ | s
    · exact ⟨_, by simp only [placeBid, if_neg ha, hu, hs]; rw [if_neg huv]⟩
    by_cases hst : s.status ≠ .OPEN
    · exact ⟨_, by simp only [placeBid, if_neg ha, hu, hs]; rw [if_neg huv, if_pos hst]⟩
    by_cases hself : s.executiveId = ownerUserId
    · exact ⟨_, by
        simp only [placeBid, if_neg ha, hu, hs]
        rw [if_neg huv, if_neg hst, if_pos hself]⟩
    by_cases hend : s.auctionEndsAt ≤ now
    · exact ⟨_, by
        simp only [placeBid, if_neg ha, hu, hs]
        rw [if_neg huv, if_neg hst, if_neg hself, if_pos hend]⟩
    exfalso
    rcases hviol with h1 | ⟨u2, hu2, hv2⟩ | h3 | ⟨s2, hs2, hv4⟩ | ⟨s2, hs2, hv5⟩ |
        ⟨s2, hs2, hv6⟩
    · rw [hu] at h1; exact Option.noConfusion h1
    · rw [hu] at hu2
      injection hu2 with hu3
      subst hu3
      exact hv2 (not_not.mp huv)
    · rw [hs] at h3; exact Option.noConfusion h3
    · rw [hs] at hs2
      injection hs2 with hs3
      subst hs3
      exact hv4 (not_not.mp hst)
    · rw [hs] at hs2
      injection hs2 with hs3
      subst hs3
      exact hself hv5
    · rw [hs] at hs2
      injection hs2 with hs3
      subst hs3
      exact hend hv6
  · intro gw pubOk db slotId ownerUserId amount now bidId u s ha hu hukind huver hs
      hst hself hend hgw
    simp only [placeBid, if_neg (show ¬ amount ≤ 0 by omega), hu, hs]
    rw [if_neg (by simp [hukind, huver]), if_neg (by simp [hst]), if_neg hself,
      if_neg (show ¬ s.auctionEndsAt ≤ now by omega), if_pos (by simp [hgw])]

/-- Closed instance of `C9_place_bid_aborts`: principal 1 of `sampleDB` is
an `EXECUTIVE`, so their bid attempt aborts with no gateway call and no
bid row. -/
theorem C9_place_bid_aborts_witness :
    ∃ e, placeBid gwOk true sampleDB 10 1 80 50 30 = (sampleDB, [], .error e) :=
  C9_place_bid_aborts.1 gwOk true sampleDB 10 1 80 50 30
    (Or.inr (Or.inl ⟨{ id := 1, type := .EXECUTIVE, verified := true },
      by rfl, by decide⟩))

/-! ## C10: timing of lifecycle notifications -/

/-- Whether an event is a lifecycle notification broadcast. -/
def isBroadcast : Event → Bool
  | .broadcastBidCreated _ _ _ _ => true
  | .broadcastAuctionClosed _ _ _ _ _ => true
  | _ => false

/-- The property asserted by the spec sentence "notifications are emitted
only after the owning transaction has committed": every broadcast event of
the trace occurs strictly after a commit marker. -/
def broadcastsOnlyAfterCommit (tr : List Event) : Prop :=
  ∀ i, (h : i < tr.length) → isBroadcast (tr.get ⟨i, h⟩) = true →
    ∃ j, ∃ (hj : j < i), tr.get ⟨j, Nat.lt_trans hj h⟩ = .commit

/-- **C10, counterexample.** A successful bid placement on `sampleDB`
emits its `bidCreated` broadcast from inside the transaction, before the
`commit` of the owning transaction: the claim's "emitted only after the
owning transaction has committed" is false of the code (the service invokes
`broadcastBidCreated`/`broadcastAuctionClosed` inside the `db.transaction`
callback). -/
theorem C10_counterexample_broadcast_before_commit :
    (placeBid gwOk true sampleDB 10 3 80 50 30).2.2 =
      .ok { id := 30, slotId := 10, ownerId := 3, amount := 80,
            escrowStatus := .LOCKED, createdAt := 50 } ∧
    (placeBid gwOk true sampleDB 10 3 80 50 30).2.1 =
      [.gateway (.lockFunds 30 3 80), .broadcastBidCreated 30 10 3 80, .commit] ∧
    ¬ broadcastsOnlyAfterCommit (placeBid gwOk true sampleDB 10 3 80 50 30).2.1 := by
  refine ⟨rfl, rfl, ?_⟩
  intro hp
  obtain ⟨j, hj, hcommit⟩ := hp 1 (by decide) (by rfl)
  have hj0 : j = 0 := Nat.lt_one_iff.mp hj
  subst hj0
  exact Event.noConfusion hcommit

theorem mem_ite_append {c : Prop} [Decidable c] {l1 : List Event} {x e : Event}
    (he : e ∈ if c then l1 ++ [x] else l1) : e ∈ l1 ∨ e = x := by
  split at he
  · rcases List.mem_append.mp he with h1 | h2
    · exact Or.inl h1
    · exact Or.inr (List.mem_singleton.mp h2)
  · exact Or.inl he

/-- All events produced by a successful refund loop are gateway calls. -/
theorem refundBids_trace_gateway (gw : GatewayCall → Bool) (skip : Option Nat)
    (l : List Bid) (db : DB) (db2 : DB) (tr0 : List Event)
    (heq : refundBids gw skip l db [] = .ok (db2, tr0)) :
    ∀ e ∈ tr0, isBroadcast e = false ∧ e ≠ .commit := by
  obtain ⟨-, htr⟩ := refundBids_ok gw skip l db [] db2 tr0 heq
  subst htr
  intro e he
  simp only [List.nil_append, List.mem_map] at he
  obtain ⟨b, -, rfl⟩ := he
  exact ⟨rfl, by simp⟩

/-- **C10, amended.** Lifecycle notifications are emitted synchronously
*inside* the owning transaction, after the gateway calls and state changes
and immediately before the commit: (1) a successful bid placement's effect
trace is exactly lock call, `bidCreated` broadcast, commit; (2) a
successful auction close's trace is gateway refund calls followed by the
`auctionClosed` broadcast and then the commit; and a publisher failure is
not isolated from the transaction: with a failing publisher (3) bid
placement and (4) auction close always roll back (error result, store
unchanged). -/
theorem C10_notifications_amended :
    (∀ (gw : GatewayCall → Bool) (db : DB) (slotId uid : Nat) (amount : Int)
        (now bidId : Nat) (db1 : DB) (tr : List Event) (b : Bid),
      placeBid gw true db slotId uid amount now bidId = (db1, tr, .ok b) →
      tr = [.gateway (.lockFunds b.id b.ownerId b.amount),
            .broadcastBidCreated b.id b.slotId b.ownerId b.amount, .commit]) ∧
    (∀ (gw : GatewayCall → Bool) (db : DB) (slotId now cid : Nat) (db1 : DB)
        (tr : List Event) (res : CloseOutcome),
      closeAuction gw true db slotId now cid = (db1, tr, .ok res) →
      ∃ pre bc, tr = pre ++ [bc, .commit] ∧ isBroadcast bc = true ∧
        ∀ e ∈ pre, isBroadcast e = false ∧ e ≠ .commit) ∧
    (∀ (gw : GatewayCall → Bool) (db : DB) (slotId uid : Nat) (amount : Int)
        (now bidId : Nat),
      ∃ tr e, placeBid gw false db slotId uid amount now bidId =
        (db, tr, .error e)) ∧
    (∀ (gw : GatewayCall → Bool) (db : DB) (slotId now cid : Nat),
      ∃ tr e, closeAuction gw false db slotId now cid = (db, tr, .error e)) := by
  refine ⟨?_, ?_, ?_, ?_⟩
  · intro gw db slotId uid amount now bidId db1 tr b h
    simp only [placeBid] at h
    repeat' split at h
    all_goals first
      | (rw [Prod.mk.injEq, Prod.mk.injEq] at h
         obtain ⟨hdb, htr, hok⟩ := h
         rw [Except.ok.injEq] at hok
         subst hok
         exact htr.symm)
      | (exfalso; simp at h; done)
  · intro gw db slotId now cid db1 tr res h
    simp only [closeAuction, if_true] at h
    split at h
    · simp at h
    next db0 lockedSlot heqLock =>
      split at h
      · simp at h
      next profile heqProf =>
        split at h
        · -- VOID branch
          split at h
          · simp at h
          next db2 tr0 heqRef =>
            rw [Prod.mk.injEq, Prod.mk.injEq] at h
            obtain ⟨-, htr, -⟩ := h
            refine ⟨tr0, .broadcastAuctionClosed slotId .VOID none none none,
              htr.symm, rfl, refundBids_trace_gateway _ _ _ _ _ _ heqRef⟩
        · -- winner branch
          next _ winner restValid hvb =>
            split at h
            · simp at h
            next db2 tr0 heqRef =>
              split at h
              · simp at h
              · rw [Prod.mk.injEq, Prod.mk.injEq] at h
                obtain ⟨-, htr, -⟩ := h
                refine ⟨_, _, htr.symm, rfl, ?_⟩
                intro e he
                rcases mem_ite_append he with h1 | h2
                · exact refundBids_trace_gateway _ _ _ _ _ _ heqRef e h1
                · subst h2
                  exact ⟨rfl, by simp⟩
  · intro gw db slotId uid amount now bidId
    simp only [placeBid]
    repeat' split
    all_goals first | exact ⟨_, _, rfl⟩ | contradiction
  · intro gw db slotId now cid
    simp only [closeAuction]
    repeat' split
    all_goals first | exact ⟨_, _, rfl⟩ | contradiction

/-- Closed instance of `C10_notifications_amended`: the trace of the
concrete successful bid placement of the counterexample has exactly the
lock–broadcast–commit shape. -/
theorem C10_notifications_amended_witness :
    [Event.gateway (.lockFunds 30 3 80), Event.broadcastBidCreated 30 10 3 80,
     Event.commit] =
      [Event.gateway
        (.lockFunds
          ({ id := 30, slotId := 10, ownerId := 3, amount := 80,
             escrowStatus := .LOCKED, createdAt := 50 } : Bid).id
          ({ id := 30, slotId := 10, ownerId := 3, amount := 80,
             escrowStatus := .LOCKED, createdAt := 50 } : Bid).ownerId
          ({ id := 30, slotId := 10, ownerId := 3, amount := 80,
             escrowStatus := .LOCKED, createdAt := 50 } : Bid).amount),
       Event.broadcastBidCreated
         ({ id := 30, slotId := 10, ownerId := 3, amount := 80,
            escrowStatus := .LOCKED, createdAt := 50 } : Bid).id
         ({ id := 30, slotId := 10, ownerId := 3, amount := 80,
            escrowStatus := .LOCKED, createdAt := 50 } : Bid).slotId
         ({ id := 30, slotId := 10, ownerId := 3, amount := 80,
            escrowStatus := .LOCKED, createdAt := 50 } : Bid).ownerId
         ({ id := 30, slotId := 10, ownerId := 3, amount := 80,
            escrowStatus := .LOCKED, createdAt := 50 } : Bid).amount,
       Event.commit] :=
  C10_notifications_amended.1 gwOk sampleDB 10 3 80 50 30
    (placeBid gwOk true sampleDB 10 3 80 50 30).1
    [Event.gateway (.lockFunds 30 3 80), Event.broadcastBidCreated 30 10 3 80,
     Event.commit]
    { id := 30, slotId := 10, ownerId := 3, amount := 80,
      escrowStatus := .LOCKED, createdAt := 50 }
    (by rfl)

/-! ## C3: VOID close refunds every LOCKED bid exactly once -/

/-- **C3.** When an auction close ends in the VOID outcome (no bid met the
reserve), every bid of the slot whose escrow was `LOCKED` is refunded its
full amount by exactly one gateway `refundToOwner` call and its row is
marked `REFUNDED`; the slot's status becomes `VOID`, the issuer profile's
`activeSlotId` is cleared, and no contract row is created. -/
theorem C3_void_close_refunds (gw : GatewayCall → Bool) (pubOk : Bool)
    (db : DB) (slotId now cid : Nat) (db1 : DB) (tr : List Event) (sid : Nat)
    (hNb : (db.bids.map (fun b => b.id)).Nodup)
    (hNs : (db.slots.map (fun s => s.id)).Nodup)
    (h : closeAuction gw pubOk db slotId now cid = (db1, tr, .ok (.voided sid))) :
    (∀ b ∈ db.bids, b.slotId = slotId → b.escrowStatus = .LOCKED →
      bidById db1 b.id = some { b with escrowStatus := .REFUNDED } ∧
      tr.filter (isRefundFor b.id) =
        [.gateway (.refundToOwner b.id b.ownerId b.amount)]) ∧
    slotStatusIs db1 slotId .VOID ∧
    (∀ s ∈ db.slots, s.id = slotId → profileCleared db1 s.executiveId) ∧
    db1.contracts = db.contracts := by
  simp only [closeAuction] at h
  split at h
  · simp at h
  next db0 lockedSlot heqLock =>
    split at h
    · simp at h
    next profile heqProf =>
      split at h
      · -- VOID branch
        split at h
        · simp at h
        next db2 tr0 heqRef =>
          split at h
          · rw [Prod.mk.injEq, Prod.mk.injEq] at h
            obtain ⟨hdb1, htr, -⟩ := h
            obtain ⟨hdb2, htr0⟩ := refundBids_ok gw none _ db0 [] db2 tr0 heqRef
            rw [List.nil_append] at htr0
            obtain ⟨s0, hs0mem, hs0id, hs0open, hs0due, hls, hu0, hp0, hb0, hc0, hsl0⟩ :=
              lockSlotForClose_some heqLock
            have hsorted : sortedSlotBids db0 slotId = sortedSlotBids db slotId :=
              sortedSlotBids_congr hb0 slotId
            have hsortN : ((sortedSlotBids db slotId).map (fun b => b.id)).Nodup :=
              nodup_sortedSlotBids slotId hNb
            have hEN :
                (((sortedSlotBids db slotId).filter (eligibleForRefund none)).map
                  (fun b => b.id)).Nodup :=
              hsortN.sublist ((List.filter_sublist _).map _)
            have hb1bids : db1.bids = db.bids.map (refundMark
                (((sortedSlotBids db slotId).filter (eligibleForRefund none)).map
                  (fun b => b.id))) := by
              rw [← hdb1, clearActiveSlot_bids, setSlotStatus_bids, hdb2,
                foldl_updateBid_bids, hsorted, hb0]
            refine ⟨?_, ?_, ?_, ?_⟩
            · intro b hbmem hbslot hblocked
              have hbsort : b ∈ sortedSlotBids db slotId :=
                mem_sortedSlotBids.mpr ⟨hbmem, hbslot⟩
              have helig : eligibleForRefund none b = true := by
                simp [eligibleForRefund, hblocked]
              have hbE : b ∈ (sortedSlotBids db slotId).filter (eligibleForRefund none) :=
                List.mem_filter.mpr ⟨hbsort, helig⟩
              constructor
              · unfold bidById
                rw [hb1bids,
                  find?_map_keyed _ _ _ (fun x => by unfold refundMark; split <;> rfl),
                  find?_key_eq_of_mem (fun x => x.id) db.bids hNb b hbmem,
                  Option.map_some']
                congr 1
                unfold refundMark
                rw [if_pos ⟨List.mem_map_of_mem (fun x => x.id) hbE, hblocked⟩]
              · have hcong : ∀ x ∈ (sortedSlotBids db0 slotId).filter
                    (eligibleForRefund none),
                    (isRefundFor b.id ∘ fun b2 =>
                      Event.gateway (.refundToOwner b2.id b2.ownerId b2.amount)) x =
                      decide (x.id = b.id) := fun x _ => rfl
                rw [← htr, List.filter_append, htr0, List.filter_map,
                  List.filter_congr hcong,
                  filter_key_eq_of_mem (fun x => x.id) _
                    (hsorted ▸ hEN) b (hsorted ▸ hbE)]
                rfl
            · intro s hs hid
              rw [← hdb1, clearActiveSlot_slots] at hs
              exact setSlotStatus_status s hs hid
            · intro s hsmem hsid
              have hseq : s = s0 :=
                eq_of_key_mem_nodup (fun x => x.id) hNs hsmem hs0mem
                  (by show s.id = s0.id; rw [hsid, hs0id])
              rw [hseq]
              have hexec : lockedSlot.executiveId = s0.executiveId := by rw [hls]
              rw [← hdb1, ← hexec]
              exact profileCleared_clearActiveSlot _ _
            · rw [← hdb1, clearActiveSlot_contracts, setSlotStatus_contracts, hdb2,
                foldl_updateBid_contracts, hc0]
          · simp at h
      · -- winner branch cannot produce the voided outcome
        repeat' split at h
        all_goals simp at h

/-- `sampleDB` with a reserve price of 1000, above every bid: closing the
auction voids the slot. -/
def voidDB : DB :=
  { sampleDB with
    profiles := [{ userId := 1, inviteOnly := true, activeSlotId := some 10,
                   reservePrice := 1000, categories := [] }] }

/-- Closed instance of `C3_void_close_refunds` on `voidDB`. -/
theorem C3_void_close_refunds_witness :
    (∀ b ∈ voidDB.bids, b.slotId = 10 → b.escrowStatus = .LOCKED →
      bidById (closeAuction gwOk true voidDB 10 100 77).1 b.id =
        some { b with escrowStatus := .REFUNDED } ∧
      (closeAuction gwOk true voidDB 10 100 77).2.1.filter (isRefundFor b.id) =
        [.gateway (.refundToOwner b.id b.ownerId b.amount)]) ∧
    slotStatusIs (closeAuction gwOk true voidDB 10 100 77).1 10 .VOID ∧
    (∀ s ∈ voidDB.slots, s.id = 10 →
      profileCleared (closeAuction gwOk true voidDB 10 100 77).1 s.executiveId) ∧
    (closeAuction gwOk true voidDB 10 100 77).1.contracts = voidDB.contracts :=
  C3_void_close_refunds gwOk true voidDB 10 100 77
    (closeAuction gwOk true voidDB 10 100 77).1
    (closeAuction gwOk true voidDB 10 100 77).2.1
    10 (by decide) (by decide) (by rfl)

theorem filter_refund_broadcast_commit (i sl : Nat) (st : SlotStatus)
    (a b : Option Nat) (p : Option Int) :
    [Event.broadcastAuctionClosed sl st a b p, Event.commit].filter
      (isRefundFor i) = [] := rfl

/-! ## C4: winner escrow frame at close -/

/-- **C4.** When an auction close produces a contract, the winning bid's
row is completely untouched (so a `LOCKED` winning escrow stays `LOCKED`
and is never marked `REFUNDED` by close); the only refund call referencing
the winner is for the excess `amount − clearingPrice`, and only when that
excess is positive; while every non-winning `LOCKED` bid of the slot is
refunded its full amount by exactly one call and marked `REFUNDED`. -/
theorem C4_winner_escrow_frame (gw : GatewayCall → Bool) (pubOk : Bool)
    (db : DB) (slotId now cid : Nat) (db1 : DB) (tr : List Event)
    (c : Contract)
    (hNb : (db.bids.map (fun b => b.id)).Nodup)
    (h : closeAuction gw pubOk db slotId now cid = (db1, tr, .ok (.contracted c))) :
    (∀ w ∈ db.bids, w.id = c.winningBidId →
      bidById db1 w.id = some w ∧
      (w.escrowStatus = .LOCKED →
        ∃ b2, bidById db1 w.id = some b2 ∧ b2.escrowStatus = .LOCKED) ∧
      tr.filter (isRefundFor w.id) =
        (if c.clearingPrice < w.amount then
          [.gateway (.refundToOwner w.id w.ownerId (w.amount - c.clearingPrice))]
         else [])) ∧
    (∀ b ∈ db.bids, b.slotId = slotId → b.id ≠ c.winningBidId →
      b.escrowStatus = .LOCKED →
      bidById db1 b.id = some { b with escrowStatus := .REFUNDED } ∧
      tr.filter (isRefundFor b.id) =
        [.gateway (.refundToOwner b.id b.ownerId b.amount)]) := by
  simp only [closeAuction] at h
  split at h
  · simp at h
  next db0 lockedSlot heqLock =>
    split at h
    · simp at h
    next profile heqProf =>
      split at h
      · -- VOID branch cannot produce a contract outcome
        repeat' split at h
        all_goals simp at h
      next _ winner restValid hvb =>
        split at h
        · simp at h
        next db2 tr0 heqRef =>
          split at h
          · simp at h
          next hexcond =>
            split at h
            · rw [Prod.mk.injEq, Prod.mk.injEq] at h
              obtain ⟨hdb1, htr, hres⟩ := h
              rw [Except.ok.injEq, CloseOutcome.contracted.injEq] at hres
              have hwid : c.winningBidId = winner.id :=
                (congrArg Contract.winningBidId hres).symm
              have hcp : c.clearingPrice = clearingPriceOf winner restValid :=
                (congrArg Contract.clearingPrice hres).symm
              obtain ⟨hdb2, htr0⟩ := refundBids_ok gw (some winner.id) _ db0 [] db2
                tr0 heqRef
              rw [List.nil_append] at htr0
              obtain ⟨s0, hs0mem, hs0id, hs0open, hs0due, hls, hu0, hp0, hb0, hc0,
                hsl0⟩ := lockSlotForClose_some heqLock
              have hsorted : sortedSlotBids db0 slotId = sortedSlotBids db slotId :=
                sortedSlotBids_congr hb0 slotId
              have hsortN : ((sortedSlotBids db slotId).map (fun b => b.id)).Nodup :=
                nodup_sortedSlotBids slotId hNb
              have hEN :
                  (((sortedSlotBids db slotId).filter
                    (eligibleForRefund (some winner.id))).map (fun b => b.id)).Nodup :=
                hsortN.sublist ((List.filter_sublist _).map _)
              have hb1bids : db1.bids = db.bids.map (refundMark
                  (((sortedSlotBids db slotId).filter
                    (eligibleForRefund (some winner.id))).map (fun b => b.id))) := by
                rw [← hdb1, setSlotStatus_bids]
                show db2.bids = _
                rw [hdb2, foldl_updateBid_bids, hsorted, hb0]
              have hwinmem : winner ∈ db.bids := by
                have h1 : winner ∈ (sortedSlotBids db0 slotId).filter
                    (fun b => decide (profile.reservePrice ≤ b.amount)) := by
                  rw [hvb]; exact List.mem_cons_self _ _
                have h2 := List.mem_of_mem_filter h1
                rw [hsorted] at h2
                exact (mem_sortedSlotBids.mp h2).1
              have hEnotwin : ∀ x ∈ (sortedSlotBids db slotId).filter
                  (eligibleForRefund (some winner.id)), ¬ x.id = winner.id := by
                intro x hx
                have hel := (List.mem_filter.mp hx).2
                unfold eligibleForRefund at hel
                simp only [Bool.and_eq_true, decide_eq_true_eq] at hel
                exact hel.1
              have htr0filter : ∀ i, i = winner.id →
                  tr0.filter (isRefundFor i) = [] := by
                intro i hi
                subst hi
                rw [htr0, hsorted, List.filter_map]
                have hcong : ∀ x ∈ (sortedSlotBids db slotId).filter
                    (eligibleForRefund (some winner.id)),
                    (isRefundFor winner.id ∘ fun b2 =>
                      Event.gateway (.refundToOwner b2.id b2.ownerId b2.amount)) x =
                      decide (x.id = winner.id) := fun x _ => rfl
                rw [List.filter_congr hcong,
                  List.filter_eq_nil_iff.mpr
                    (fun x hx => by
                      simp only [decide_eq_true_eq]
                      exact hEnotwin x hx),
                  List.map_nil]
              constructor
              · intro w hwmem hwidw
                rw [hwid] at hwidw
                have hweq : w = winner :=
                  eq_of_key_mem_nodup (fun x => x.id) hNb hwmem hwinmem
                    (by show w.id = winner.id; rw [hwidw])
                have hfind : bidById db1 w.id = some w := by
                  unfold bidById
                  rw [hb1bids,
                    find?_map_keyed _ _ _
                      (fun x => by unfold refundMark; split <;> rfl),
                    find?_key_eq_of_mem (fun x => x.id) db.bids hNb w hwmem,
                    Option.map_some']
                  congr 1
                  unfold refundMark
                  rw [if_neg]
                  rintro ⟨hmemT, -⟩
                  rw [List.mem_map] at hmemT
                  obtain ⟨x, hxE, hxid⟩ := hmemT
                  exact hEnotwin x hxE (by rw [hxid, hwidw])
                refine ⟨hfind, fun hlk => ⟨w, hfind, hlk⟩, ?_⟩
                rw [← htr, List.filter_append, filter_refund_broadcast_commit,
                  List.append_nil]
                by_cases hlt : c.clearingPrice < w.amount
                · rw [if_pos hlt]
                  rw [hweq] at hlt
                  have hpos : 0 < winner.amount - clearingPriceOf winner restValid := by
                    rw [← hcp]
                    omega
                  rw [if_pos hpos, List.filter_append, htr0filter w.id hwidw,
                    List.nil_append,
                    List.filter_cons_of_pos (by simp [isRefundFor, hwidw]),
                    List.filter_nil, hweq, ← hcp]
                · rw [if_neg hlt]
                  rw [hweq] at hlt
                  have hnpos : ¬ 0 < winner.amount - clearingPriceOf winner restValid := by
                    rw [← hcp]
                    omega
                  rw [if_neg hnpos]
                  exact htr0filter w.id hwidw
              · intro b hbmem hbslot hbne hblocked
                rw [hwid] at hbne
                have hbsort : b ∈ sortedSlotBids db slotId :=
                  mem_sortedSlotBids.mpr ⟨hbmem, hbslot⟩
                have helig : eligibleForRefund (some winner.id) b = true := by
                  unfold eligibleForRefund
                  simp [hbne, hblocked]
                have hbE : b ∈ (sortedSlotBids db slotId).filter
                    (eligibleForRefund (some winner.id)) :=
                  List.mem_filter.mpr ⟨hbsort, helig⟩
                constructor
                · unfold bidById
                  rw [hb1bids,
                    find?_map_keyed _ _ _
                      (fun x => by unfold refundMark; split <;> rfl),
                    find?_key_eq_of_mem (fun x => x.id) db.bids hNb b hbmem,
                    Option.map_some']
                  congr 1
                  unfold refundMark
                  rw [if_pos ⟨List.mem_map_of_mem (fun x => x.id) hbE, hblocked⟩]
                · rw [← htr, List.filter_append, filter_refund_broadcast_commit,
                    List.append_nil]
                  have hmain : tr0.filter (isRefundFor b.id) =
                      [.gateway (.refundToOwner b.id b.ownerId b.amount)] := by
                    rw [htr0, hsorted, List.filter_map]
                    have hcong : ∀ x ∈ (sortedSlotBids db slotId).filter
                        (eligibleForRefund (some winner.id)),
                        (isRefundFor b.id ∘ fun b2 =>
                          Event.gateway (.refundToOwner b2.id b2.ownerId b2.amount)) x =
                          decide (x.id = b.id) := fun x _ => rfl
                    rw [List.filter_congr hcong,
                      filter_key_eq_of_mem (fun x => x.id) _ hEN b hbE]
                    rfl
                  by_cases hpos : 0 < winner.amount - clearingPriceOf winner restValid
                  · rw [if_pos hpos, List.filter_append, hmain,
                      List.filter_cons_of_neg (by
                        simp only [isRefundFor, decide_eq_true_eq]
                        intro heq2
                        exact hbne heq2.symm),
                      List.filter_nil, List.append_nil]
                  · rw [if_neg hpos]
                    exact hmain
            · simp at h

/-- The contract created when `sampleDB`'s auction closes: bid 21 wins at
the second-highest valid amount 70. -/
def c77 : Contract :=
  { id := 77, slotId := 10, winningBidId := 21, clearingPrice := 70,
    status := .ACTIVE, startedAt := 100, deadlineAt := 100 + 7 * ONE_DAY_MS }

/-- Closed instance of `C4_winner_escrow_frame` on `sampleDB`: the winning
bid 21 stays `LOCKED`, only its excess 30 is refunded, and bids 22, 23, 24
are refunded in full. -/
theorem C4_winner_escrow_frame_witness :
    (∀ w ∈ sampleDB.bids, w.id = c77.winningBidId →
      bidById (closeAuction gwOk true sampleDB 10 100 77).1 w.id = some w ∧
      (w.escrowStatus = .LOCKED →
        ∃ b2, bidById (closeAuction gwOk true sampleDB 10 100 77).1 w.id = some b2 ∧
          b2.escrowStatus = .LOCKED) ∧
      (closeAuction gwOk true sampleDB 10 100 77).2.1.filter (isRefundFor w.id) =
        (if c77.clearingPrice < w.amount then
          [.gateway (.refundToOwner w.id w.ownerId (w.amount - c77.clearingPrice))]
         else [])) ∧
    (∀ b ∈ sampleDB.bids, b.slotId = 10 → b.id ≠ c77.winningBidId →
      b.escrowStatus = .LOCKED →
      bidById (closeAuction gwOk true sampleDB 10 100 77).1 b.id =
        some { b with escrowStatus := .REFUNDED } ∧
      (closeAuction gwOk true sampleDB 10 100 77).2.1.filter (isRefundFor b.id) =
        [.gateway (.refundToOwner b.id b.ownerId b.amount)]) :=
  C4_winner_escrow_frame gwOk true sampleDB 10 100 77
    (closeAuction gwOk true sampleDB 10 100 77).1
    (closeAuction gwOk true sampleDB 10 100 77).2.1
    c77 (by decide) (by rfl)

/-! ## C1: Vickrey winner and clearing price -/

/-- **C1.** When an auction close creates a contract, there is a slot row
for the closed id, the issuer's profile supplying the reserve price, and a
winning bid `w` of the slot such that: `w` meets the reserve; `w` strictly
precedes every other valid bid in the deterministic total order (amount
descending, then `createdAt` ascending, then id ascending); if `w` is the
only valid bid the clearing price is `w`'s own amount; and any valid
non-winning bid that precedes all other valid non-winning bids (i.e. the
second-ranked valid bid) has amount equal to the clearing price. -/
theorem C1_vickrey_close (gw : GatewayCall → Bool) (pubOk : Bool) (db : DB)
    (slotId now cid : Nat) (db1 : DB) (tr : List Event) (c : Contract)
    (hNb : (db.bids.map (fun b => b.id)).Nodup)
    (h : closeAuction gw pubOk db slotId now cid = (db1, tr, .ok (.contracted c))) :
    ∃ s0 ∈ db.slots, s0.id = slotId ∧
    ∃ profile ∈ db.profiles, profile.userId = s0.executiveId ∧
    ∃ w ∈ db.bids, w.slotId = slotId ∧
      c.winningBidId = w.id ∧
      profile.reservePrice ≤ w.amount ∧
      (∀ b ∈ db.bids, b.slotId = slotId → profile.reservePrice ≤ b.amount →
        b.id ≠ w.id → bidPrec w b) ∧
      ((∀ b ∈ db.bids, b.slotId = slotId → profile.reservePrice ≤ b.amount →
        b.id = w.id) → c.clearingPrice = w.amount) ∧
      (∀ b2 ∈ db.bids, b2.slotId = slotId → profile.reservePrice ≤ b2.amount →
        b2.id ≠ w.id →
        (∀ b ∈ db.bids, b.slotId = slotId → profile.reservePrice ≤ b.amount →
          b.id ≠ w.id → b.id ≠ b2.id → bidPrec b2 b) →
        c.clearingPrice = b2.amount) := by
  simp only [closeAuction] at h
  split at h
  · simp at h
  next db0 lockedSlot heqLock =>
    split at h
    · simp at h
    next profile heqProf =>
      split at h
      · repeat' split at h
        all_goals simp at h
      next _ winner restValid hvb =>
        split at h
        · simp at h
        next db2 tr0 heqRef =>
          split at h
          · simp at h
          next hexcond =>
            split at h
            · rw [Prod.mk.injEq, Prod.mk.injEq] at h
              obtain ⟨hdb1, htr, hres⟩ := h
              rw [Except.ok.injEq, CloseOutcome.contracted.injEq] at hres
              have hwid : c.winningBidId = winner.id :=
                (congrArg Contract.winningBidId hres).symm
              have hcp : c.clearingPrice = clearingPriceOf winner restValid :=
                (congrArg Contract.clearingPrice hres).symm
              obtain ⟨s0, hs0mem, hs0id, hs0open, hs0due, hls, hu0, hp0, hb0, hc0,
                hsl0⟩ := lockSlotForClose_some heqLock
              have hsorted : sortedSlotBids db0 slotId = sortedSlotBids db slotId :=
                sortedSlotBids_congr hb0 slotId
              rw [hsorted] at hvb
              -- the profile row
              have hprofmem : profile ∈ db.profiles := by
                have := List.mem_of_find?_eq_some (by
                  unfold findProfile at heqProf
                  exact heqProf)
                rw [hp0] at this
                exact this
              have hprofuid : profile.userId = lockedSlot.executiveId :=
                findProfile_userId heqProf
              have hexecid : lockedSlot.executiveId = s0.executiveId := by rw [hls]
              -- the winner
              have hwinfilter : winner ∈ (sortedSlotBids db slotId).filter
                  (fun b => decide (profile.reservePrice ≤ b.amount)) := by
                rw [hvb]; exact List.mem_cons_self _ _
              have hwinsort := List.mem_of_mem_filter hwinfilter
              have hwinres : profile.reservePrice ≤ winner.amount := by
                have := (List.mem_filter.mp hwinfilter).2
                simpa using this
              have hwinmem : winner ∈ db.bids := (mem_sortedSlotBids.mp hwinsort).1
              have hwinslot : winner.slotId = slotId :=
                (mem_sortedSlotBids.mp hwinsort).2
              -- sortedness and id-uniqueness of the valid bids
              have hsortedS : List.Sorted bidLE (sortedSlotBids db slotId) := by
                unfold sortedSlotBids
                exact List.sorted_insertionSort bidLE _
              have hsortedV : List.Sorted bidLE (winner :: restValid) := by
                rw [← hvb]
                exact hsortedS.filter _
              have hsortN : ((sortedSlotBids db slotId).map (fun b => b.id)).Nodup :=
                nodup_sortedSlotBids slotId hNb
              have hVN : ((winner :: restValid).map (fun b => b.id)).Nodup := by
                rw [← hvb]
                exact hsortN.sublist ((List.filter_sublist _).map _)
              -- membership of any valid bid of the slot in the valid list
              have hvalidmem : ∀ b ∈ db.bids, b.slotId = slotId →
                  profile.reservePrice ≤ b.amount → b ∈ winner :: restValid := by
                intro b hb hbs hbr
                rw [← hvb]
                exact List.mem_filter.mpr
                  ⟨mem_sortedSlotBids.mpr ⟨hb, hbs⟩, by simpa using hbr⟩
              refine ⟨s0, hs0mem, hs0id, profile, hprofmem,
                by rw [hprofuid, hexecid], winner, hwinmem, hwinslot, hwid,
                hwinres, ?_, ?_, ?_⟩
              · -- strict minimality of the winner
                intro b hb hbs hbr hbne
                rcases List.mem_cons.mp (hvalidmem b hb hbs hbr) with rfl | hbrest
                · exact absurd rfl hbne
                · exact bidLE_ne_imp_prec
                    (List.rel_of_sorted_cons hsortedV b hbrest)
                    (fun he => hbne (by rw [← he]))
              · -- sole valid bidder
                intro hall
                rcases hrv : restValid with _ | ⟨second, tail⟩
                · rw [hcp, hrv]; rfl
                · exfalso
                  have hsecmem : second ∈ winner :: restValid := by
                    rw [hrv]; exact List.mem_cons_of_mem _ (List.mem_cons_self _ _)
                  have hsecfilter : second ∈ (sortedSlotBids db slotId).filter
                      (fun b => decide (profile.reservePrice ≤ b.amount)) := by
                    rw [hvb]; exact hsecmem
                  have hsecsort := List.mem_of_mem_filter hsecfilter
                  have hsecid := hall second (mem_sortedSlotBids.mp hsecsort).1
                    (mem_sortedSlotBids.mp hsecsort).2
                    (by simpa using (List.mem_filter.mp hsecfilter).2)
                  rw [hrv] at hVN
                  rw [List.map_cons, List.nodup_cons] at hVN
                  have hsecin : second.id ∈ (second :: tail).map (fun b => b.id) :=
                    List.mem_map_of_mem _ (List.mem_cons_self _ _)
                  rw [hsecid] at hsecin
                  exact hVN.1 hsecin
              · -- second-price
                intro b2 hb2 hb2s hb2r hb2ne hmin
                rcases hrv : restValid with _ | ⟨second, tail⟩
                · exfalso
                  rcases List.mem_cons.mp (hvalidmem b2 hb2 hb2s hb2r) with rfl | hrest
                  · exact hb2ne rfl
                  · rw [hrv] at hrest
                    exact absurd hrest (List.not_mem_nil b2)
                · have hsecmem : second ∈ winner :: restValid := by
                    rw [hrv]; exact List.mem_cons_of_mem _ (List.mem_cons_self _ _)
                  have hsecfilter : second ∈ (sortedSlotBids db slotId).filter
                      (fun b => decide (profile.reservePrice ≤ b.amount)) := by
                    rw [hvb]; exact hsecmem
                  have hsecsort := List.mem_of_mem_filter hsecfilter
                  have hsecbids := (mem_sortedSlotBids.mp hsecsort).1
                  have hsecslot := (mem_sortedSlotBids.mp hsecsort).2
                  have hsecres : profile.reservePrice ≤ second.amount := by
                    simpa using (List.mem_filter.mp hsecfilter).2
                  rw [hrv] at hVN hsortedV
                  rw [List.map_cons, List.nodup_cons] at hVN
                  have hsecne : second.id ≠ winner.id := by
                    intro he
                    have hsecin : second.id ∈ (second :: tail).map (fun b => b.id) :=
                      List.mem_map_of_mem _ (List.mem_cons_self _ _)
                    rw [he] at hsecin
                    exact hVN.1 hsecin
                  -- b2 is either second or blocked by asymmetry
                  have hb2eq : b2 = second := by
                    rcases List.mem_cons.mp (hvalidmem b2 hb2 hb2s hb2r) with rfl | hrest
                    · exact absurd rfl hb2ne
                    · rw [hrv] at hrest
                      rcases List.mem_cons.mp hrest with rfl | htail
                      · rfl
                      · exfalso
                        by_cases hsame : b2.id = second.id
                        · -- same id in a nodup list at different positions
                          have hb2insec : b2 ∈ second :: tail := by
                            exact List.mem_cons_of_mem _ htail
                          have hb2sec := eq_of_key_mem_nodup (fun x => x.id) hVN.2
                            hb2insec (List.mem_cons_self _ _) hsame
                          subst hb2sec
                          have h5 := hVN.2
                          rw [List.map_cons, List.nodup_cons] at h5
                          exact h5.1 (List.mem_map_of_mem (fun x => x.id) htail)
                        · have hp1 : bidPrec b2 second :=
                            hmin second hsecbids hsecslot hsecres hsecne
                              (fun he => hsame he.symm)
                          have hsorted2 : List.Sorted bidLE (second :: tail) :=
                            hsortedV.of_cons
                          have hp2 : bidPrec second b2 :=
                            bidLE_ne_imp_prec
                              (List.rel_of_sorted_cons hsorted2 b2 htail)
                              (fun he => hsame he.symm)
                          exact bidPrec_asymm hp1 hp2
                  rw [hcp, hrv, hb2eq]
                  rfl
            · simp at h

/-- Closed instance of `C1_vickrey_close`: on `sampleDB` (bids 100, 70, 70,
50 with reserve 60) the winner is bid 21 (amount 100) and the clearing
price 70 is the second valid bid's amount. -/
theorem C1_vickrey_close_witness :
    ∃ s0 ∈ sampleDB.slots, s0.id = 10 ∧
    ∃ profile ∈ sampleDB.profiles, profile.userId = s0.executiveId ∧
    ∃ w ∈ sampleDB.bids, w.slotId = 10 ∧
      c77.winningBidId = w.id ∧
      profile.reservePrice ≤ w.amount ∧
      (∀ b ∈ sampleDB.bids, b.slotId = 10 → profile.reservePrice ≤ b.amount →
        b.id ≠ w.id → bidPrec w b) ∧
      ((∀ b ∈ sampleDB.bids, b.slotId = 10 → profile.reservePrice ≤ b.amount →
        b.id = w.id) → c77.clearingPrice = w.amount) ∧
      (∀ b2 ∈ sampleDB.bids, b2.slotId = 10 → profile.reservePrice ≤ b2.amount →
        b2.id ≠ w.id →
        (∀ b ∈ sampleDB.bids, b.slotId = 10 → profile.reservePrice ≤ b.amount →
          b.id ≠ w.id → b.id ≠ b2.id → bidPrec b2 b) →
        c77.clearingPrice = b2.amount) :=
  C1_vickrey_close gwOk true sampleDB 10 100 77
    (closeAuction gwOk true sampleDB 10 100 77).1
    (closeAuction gwOk true sampleDB 10 100 77).2.1
    c77 (by decide) (by rfl)

/-! ## C5: at most one active slot per issuer -/

/-- Terminal slot statuses: the slot can never again become active. -/
def isTerminal : SlotStatus → Bool
  | .COMPLETED => true
  | .BREACH => true
  | .VOID => true
  | _ => false

/-- Store well-formedness carrying the scarcity invariant: slot ids and
profile user ids are primary keys, and every non-null `activeSlotId` points
to an existing slot of the same issuer whose status is not terminal. -/
structure WF (db : DB) : Prop where
  slotsN : (db.slots.map (fun s => s.id)).Nodup
  profsN : (db.profiles.map (fun p => p.userId)).Nodup
  active : ∀ p ∈ db.profiles, ∀ sid, p.activeSlotId = some sid →
    ∃ s ∈ db.slots, s.id = sid ∧ s.executiveId = p.userId ∧
      isTerminal s.status = false

theorem WF_tables {db db' : DB} (hs : db'.slots = db.slots)
    (hp : db'.profiles = db.profiles) (h : WF db) : WF db' := by
  refine ⟨by rw [hs]; exact h.slotsN, by rw [hp]; exact h.profsN, ?_⟩
  intro p hpmem sid hsid
  rw [hp] at hpmem
  rw [hs]
  exact h.active p hpmem sid hsid

theorem map_key_of_preserve {α : Type} (f : α → α) (key : α → Nat)
    (hf : ∀ x, key (f x) = key x) (l : List α) :
    (l.map f).map key = l.map key := by
  rw [List.map_map]
  exact List.map_congr_left fun x _ => hf x

/-- The empty store. -/
def emptyDB : DB := { users := [], slots := [], profiles := [], bids := [], contracts := [] }

/-- One store transition: user provisioning, or an engine operation,
successful or failed, with fresh ids for inserted rows. Users are created
and verified outside the engine (the spec keeps identity provisioning out
of scope), so the step relation lets an arbitrary user row appear; all
other tables change only through the five engine operations. -/
inductive Step : DB → DB → Prop where
  | addUser (db : DB) (u : User) :
      Step db { db with users := db.users ++ [u] }
  | createSlot (db : DB) (uid : Nat) (tier : SlotTier) (cat : String)
      (rp : Int) (cats : List String) (now sid : Nat)
      (hfresh : ∀ s ∈ db.slots, s.id ≠ sid) :
      Step db (createExecutiveSlot db uid tier cat rp cats now sid).1
  | place (gw : GatewayCall → Bool) (pubOk : Bool) (db : DB)
      (slotId uid : Nat) (amount : Int) (now bidId : Nat) :
      Step db (placeBid gw pubOk db slotId uid amount now bidId).1
  | close (gw : GatewayCall → Bool) (pubOk : Bool) (db : DB)
      (slotId now cid : Nat) :
      Step db (closeAuction gw pubOk db slotId now cid).1
  | complete (gw : GatewayCall → Bool) (db : DB) (cid uid now : Nat) :
      Step db (completeContract gw db cid uid now).1
  | breach (gw : GatewayCall → Bool) (db : DB) (cid now : Nat) :
      Step db (autoBreachContract gw db cid now).1

/-- Stores reachable from the empty store by engine operations. -/
def Reachable (db : DB) : Prop := Relation.ReflTransGen Step emptyDB db

theorem WF_placeBid (gw : GatewayCall → Bool) (pubOk : Bool) (db : DB)
    (slotId uid : Nat) (amount : Int) (now bidId : Nat) (h : WF db) :
    WF (placeBid gw pubOk db slotId uid amount now bidId).1 := by
  simp only [placeBid]
  repeat' split
  all_goals exact @WF_tables db _ rfl rfl h

theorem WF_createSlot (db : DB) (uid : Nat) (tier : SlotTier) (cat : String)
    (rp : Int) (cats : List String) (now sid : Nat)
    (hfresh : ∀ s ∈ db.slots, s.id ≠ sid) (h : WF db) :
    WF (createExecutiveSlot db uid tier cat rp cats now sid).1 := by
  have hdisj : (db.slots.map (fun s => s.id)).Disjoint [sid] := by
    intro a ha hb
    rw [List.mem_singleton] at hb
    subst hb
    obtain ⟨s, hsmem, hsid⟩ := List.mem_map.mp ha
    exact hfresh s hsmem hsid
  have hslotsN : ((db.slots ++
      [({ id := sid, executiveId := uid, tier := tier, category := cat,
          status := .OPEN, auctionEndsAt := now + ONE_DAY_MS,
          createdAt := now } : Slot)]).map (fun s => s.id)).Nodup := by
    rw [List.map_append]
    exact h.slotsN.append (List.nodup_singleton _) hdisj
  simp only [createExecutiveSlot]
  split
  · exact @WF_tables db _ rfl rfl h
  split
  · exact @WF_tables db _ rfl rfl h
  split
  · exact @WF_tables db _ rfl rfl h
  split
  · exact @WF_tables db _ rfl rfl h
  split
  next heqNone =>
    -- no existing profile: a new row is inserted
    refine ⟨hslotsN, ?_, ?_⟩
    · show ((db.profiles ++
        [({ userId := uid, inviteOnly := true, activeSlotId := some sid,
            reservePrice := rp, categories := cats } : Profile)]).map
          (fun p => p.userId)).Nodup
      rw [List.map_append]
      refine h.profsN.append (List.nodup_singleton _) ?_
      intro a ha hb
      simp only [List.map_cons, List.map_nil, List.mem_singleton] at hb
      subst hb
      obtain ⟨p, hpmem, hpid⟩ := List.mem_map.mp ha
      unfold findProfile at heqNone
      have := List.find?_eq_none.mp heqNone p hpmem
      simp only [decide_eq_true_eq] at this
      exact this hpid
    · intro p hpmem sid2 hsid2
      rcases List.mem_append.mp hpmem with hold | hnew
      · obtain ⟨s, hsmem, hsid, hsexec, hster⟩ := h.active p hold sid2 hsid2
        exact ⟨s, List.mem_append_left _ hsmem, hsid, hsexec, hster⟩
      · rw [List.mem_singleton] at hnew
        subst hnew
        simp only [Option.some.injEq] at hsid2
        subst hsid2
        exact ⟨_, List.mem_append_right _ (List.mem_singleton_self _), rfl, rfl, rfl⟩
  next p0 heqSome =>
    -- existing profile: the row is updated in place
    refine ⟨hslotsN, ?_, ?_⟩
    · show ((db.profiles.map (fun p =>
        if p.userId = uid then
          { p with activeSlotId := some sid, reservePrice := rp,
                   categories := cats }
        else p)).map (fun p => p.userId)).Nodup
      rw [map_key_of_preserve _ _ (fun p => by split <;> rfl)]
      exact h.profsN
    · intro p hpmem sid2 hsid2
      simp only [List.mem_map] at hpmem
      obtain ⟨orig, horig, rfl⟩ := hpmem
      by_cases hou : orig.userId = uid
      · rw [if_pos hou] at hsid2 ⊢
        simp only [Option.some.injEq] at hsid2
        subst hsid2
        exact ⟨_, List.mem_append_right _ (List.mem_singleton_self _), rfl,
          hou.symm, rfl⟩
      · rw [if_neg hou] at hsid2 ⊢
        obtain ⟨s, hsmem, hsid, hsexec, hster⟩ := h.active orig horig sid2 hsid2
        exact ⟨s, List.mem_append_left _ hsmem, hsid, hsexec, hster⟩

theorem WF_map_clear (db : DB) (h : WF db) (exec : Nat) (fm : Slot → Slot)
    (hid : ∀ s, (fm s).id = s.id)
    (hex : ∀ s, (fm s).executiveId = s.executiveId)
    (hst : ∀ s ∈ db.slots, isTerminal s.status = false →
      isTerminal (fm s).status = true → s.executiveId = exec)
    (db' : DB) (hslots : db'.slots = db.slots.map fm)
    (hprofs : db'.profiles = db.profiles.map (fun p =>
      if p.userId = exec then { p with activeSlotId := none } else p)) :
    WF db' := by
  refine ⟨?_, ?_, ?_⟩
  · rw [hslots, map_key_of_preserve fm _ hid]
    exact h.slotsN
  · rw [hprofs, map_key_of_preserve _ _ (fun p => by split <;> rfl)]
    exact h.profsN
  · intro p hpmem sid hsid
    rw [hprofs] at hpmem
    simp only [List.mem_map] at hpmem
    obtain ⟨orig, horig, rfl⟩ := hpmem
    by_cases hou : orig.userId = exec
    · rw [if_pos hou] at hsid
      exact absurd hsid (by simp)
    · rw [if_neg hou] at hsid ⊢
      obtain ⟨s, hsmem, hsid2, hsexec, hster⟩ := h.active orig horig sid hsid
      refine ⟨fm s, ?_, ?_, ?_, ?_⟩
      · rw [hslots]; exact List.mem_map_of_mem fm hsmem
      · rw [hid]; exact hsid2
      · rw [hex]; exact hsexec
      · by_cases hterm : isTerminal (fm s).status = true
        · exfalso
          exact hou ((hsexec.symm.trans (hst s hsmem hster hterm)).symm ▸
            (hst s hsmem hster hterm) ▸ rfl)
        · simpa using hterm

theorem WF_map_noclear (db : DB) (h : WF db) (fm : Slot → Slot)
    (hid : ∀ s, (fm s).id = s.id)
    (hex : ∀ s, (fm s).executiveId = s.executiveId)
    (hst : ∀ s ∈ db.slots, isTerminal s.status = false →
      isTerminal (fm s).status = false)
    (db' : DB) (hslots : db'.slots = db.slots.map fm)
    (hprofs : db'.profiles = db.profiles) :
    WF db' := by
  refine ⟨?_, ?_, ?_⟩
  · rw [hslots, map_key_of_preserve fm _ hid]
    exact h.slotsN
  · rw [hprofs]
    exact h.profsN
  · intro p hpmem sid hsid
    rw [hprofs] at hpmem
    obtain ⟨s, hsmem, hsid2, hsexec, hster⟩ := h.active p hpmem sid hsid
    refine ⟨fm s, ?_, ?_, ?_, ?_⟩
    · rw [hslots]; exact List.mem_map_of_mem fm hsmem
    · rw [hid]; exact hsid2
    · rw [hex]; exact hsexec
    · exact hst s hsmem hster

theorem map_lock_then_set (db : DB) (slotId now : Nat) (st : SlotStatus) :
    (db.slots.map (fun t =>
      if t.id = slotId ∧ t.status = .OPEN ∧ t.auctionEndsAt ≤ now then
        { t with status := .AUCTION_CLOSED }
      else t)).map (fun s => if s.id = slotId then { s with status := st } else s) =
      db.slots.map (fun s => if s.id = slotId then { s with status := st } else s) := by
  rw [List.map_map]
  refine List.map_congr_left fun s _ => ?_
  show (fun s => if s.id = slotId then { s with status := st } else s)
    (if s.id = slotId ∧ s.status = .OPEN ∧ s.auctionEndsAt ≤ now then
      { s with status := .AUCTION_CLOSED }
    else s) = _
  beta_reduce
  by_cases h2 : s.id = slotId ∧ s.status = .OPEN ∧ s.auctionEndsAt ≤ now
  · rw [if_pos h2]
    have e1 : ({ s with status := SlotStatus.AUCTION_CLOSED } : Slot).id =
      slotId := h2.1
    rw [if_pos e1, if_pos h2.1]
  · rw [if_neg h2]

theorem WF_closeAuction (gw : GatewayCall → Bool) (pubOk : Bool) (db : DB)
    (slotId now cid : Nat) (h : WF db) :
    WF (closeAuction gw pubOk db slotId now cid).1 := by
  simp only [closeAuction]
  split
  · exact @WF_tables db _ rfl rfl h
  next db0 lockedSlot heqLock =>
    obtain ⟨s0, hs0mem, hs0id, hs0open, hs0due, hls, hu0, hp0, hb0, hc0, hsl0⟩ :=
      lockSlotForClose_some heqLock
    have hterm_aux : ∀ (st : SlotStatus) (s : Slot), s ∈ db.slots →
        isTerminal s.status = false →
        isTerminal (if s.id = slotId then ({ s with status := st } : Slot)
          else s).status = true →
        s.id = slotId := by
      intro st s hsmem hnt hterm
      by_cases h1 : s.id = slotId
      · exact h1
      · rw [if_neg h1] at hterm
        rw [hnt] at hterm
        exact absurd hterm (by simp)
    have hexec_aux : ∀ s ∈ db.slots, s.id = slotId →
        s.executiveId = lockedSlot.executiveId := by
      intro s hsmem h1
      have hseq : s = s0 :=
        eq_of_key_mem_nodup (fun x => x.id) h.slotsN hsmem hs0mem
          (by show s.id = s0.id; rw [h1, hs0id])
      rw [hseq, hls]
    split
    · exact @WF_tables db _ rfl rfl h
    next profile heqProf =>
      split
      · -- VOID outcome
        split
        · exact @WF_tables db _ rfl rfl h
        next db2 tr0 heqRef =>
          obtain ⟨hdb2, -⟩ := refundBids_ok gw none _ db0 [] db2 tr0 heqRef
          split
          · refine WF_map_clear db h lockedSlot.executiveId
              (fun s => if s.id = slotId then { s with status := .VOID } else s)
              (fun s => by beta_reduce; split <;> rfl)
              (fun s => by beta_reduce; split <;> rfl)
              ?_ _ ?_ ?_
            · intro s hsmem hnt hterm
              exact hexec_aux s hsmem (hterm_aux .VOID s hsmem hnt hterm)
            · show (setSlotStatus db2 slotId .VOID).slots = _
              unfold setSlotStatus
              rw [hdb2, foldl_updateBid_slots, hsl0, map_lock_then_set]
            · show ((setSlotStatus db2 slotId .VOID).profiles.map _) = _
              rw [setSlotStatus_profiles, hdb2, foldl_updateBid_profiles, hp0]
          · exact @WF_tables db _ rfl rfl h
      next _ winner restValid hvb =>
        split
        · exact @WF_tables db _ rfl rfl h
        next db2 tr0 heqRef =>
          obtain ⟨hdb2, -⟩ := refundBids_ok gw (some winner.id) _ db0 [] db2 tr0
            heqRef
          split
          · exact @WF_tables db _ rfl rfl h
          · split
            · refine WF_map_noclear db h
                (fun s => if s.id = slotId then { s with status := .IN_PROGRESS }
                 else s)
                (fun s => by beta_reduce; split <;> rfl)
                (fun s => by beta_reduce; split <;> rfl)
                ?_ _ ?_ ?_
              · intro s hsmem hnt
                beta_reduce
                by_cases h1 : s.id = slotId
                · rw [if_pos h1]
                  rfl
                · rw [if_neg h1]
                  exact hnt
              · show (db2.slots.map _) = _
                rw [hdb2, foldl_updateBid_slots, hsl0, map_lock_then_set]
              · show db2.profiles = _
                rw [hdb2, foldl_updateBid_profiles, hp0]
            · exact @WF_tables db _ rfl rfl h

theorem WF_terminal_join (db : DB) (h : WF db) (c : Contract) (slot : Slot)
    (hfs : findSlot db c.slotId = some slot) (st : SlotStatus)
    (hstterm : st = .COMPLETED ∨ st = .BREACH) (db' : DB)
    (hslots : db'.slots = db.slots.map
      (fun s => if s.id = slot.id then { s with status := st } else s))
    (hprofs : db'.profiles = db.profiles.map (fun p =>
      if p.userId = slot.executiveId then { p with activeSlotId := none }
      else p)) : WF db' := by
  have hslotmem : slot ∈ db.slots := by
    unfold findSlot at hfs
    exact List.mem_of_find?_eq_some hfs
  refine WF_map_clear db h slot.executiveId _
    (fun s => by beta_reduce; split <;> rfl)
    (fun s => by beta_reduce; split <;> rfl) ?_ db' hslots hprofs
  intro s hsmem hnt hterm
  by_cases h1 : s.id = slot.id
  · have hseq : s = slot :=
      eq_of_key_mem_nodup (fun x => x.id) h.slotsN hsmem hslotmem h1
    rw [hseq]
  · rw [if_neg h1, hnt] at hterm
    exact absurd hterm (by simp)

theorem WF_completeContract (gw : GatewayCall → Bool) (db : DB)
    (cid uid now : Nat) (h : WF db) :
    WF (completeContract gw db cid uid now).1 := by
  simp only [completeContract]
  split
  · exact @WF_tables db _ rfl rfl h
  next c slot wbid heq =>
    obtain ⟨hfc, hfs, hfb⟩ := joinContract_eq_some heq
    repeat' split
    all_goals first
      | exact @WF_tables db _ rfl rfl h
      | exact WF_terminal_join db h c slot hfs .COMPLETED (Or.inl rfl) _ rfl rfl

theorem WF_autoBreach (gw : GatewayCall → Bool) (db : DB) (cid now : Nat)
    (h : WF db) : WF (autoBreachContract gw db cid now).1 := by
  simp only [autoBreachContract]
  split
  · exact @WF_tables db _ rfl rfl h
  next c slot wbid heq =>
    obtain ⟨hfc, hfs, hfb⟩ := joinContract_eq_some heq
    repeat' split
    all_goals first
      | exact @WF_tables db _ rfl rfl h
      | exact WF_terminal_join db h c slot hfs .BREACH (Or.inr rfl) _ rfl rfl

theorem WF_step {db db' : DB} (hstep : Step db db') (h : WF db) : WF db' := by
  cases hstep with
  | addUser db u =>
    exact @WF_tables db _ rfl rfl h
  | createSlot db uid tier cat rp cats now sid hfresh =>
    exact WF_createSlot db uid tier cat rp cats now sid hfresh h
  | place gw pubOk db slotId uid amount now bidId =>
    exact WF_placeBid gw pubOk db slotId uid amount now bidId h
  | close gw pubOk db slotId now cid =>
    exact WF_closeAuction gw pubOk db slotId now cid h
  | complete gw db cid uid now =>
    exact WF_completeContract gw db cid uid now h
  | breach gw db cid now =>
    exact WF_autoBreach gw db cid now h

theorem WF_emptyDB : WF emptyDB := by
  refine ⟨List.nodup_nil, List.nodup_nil, ?_⟩
  intro p hp
  exact absurd hp (List.not_mem_nil p)

theorem WF_reachable (db : DB) (h : Reachable db) : WF db := by
  induction h with
  | refl => exact WF_emptyDB
  | tail _ hstep ih => exact WF_step hstep ih

/-- **C5.** At most one slot per issuer is open or in flight: (1) slot
creation by a verified executive fails with the conflict error and no
effect whenever the issuer's profile has a non-null `activeSlotId`; (2)
every terminal transition clears the issuer profile's `activeSlotId` —
at a VOID close, at contract completion, and at auto-breach; and (3) in
every store reachable from the empty store by engine operations (with
store-generated slot ids fresh), each issuer profile's `activeSlotId` is
either null or points to exactly one existing slot, owned by that issuer,
whose status is not terminal. -/
theorem C5_active_slot_invariant :
    (∀ (db : DB) (uid : Nat) (tier : SlotTier) (cat : String) (rp : Int)
        (cats : List String) (now sid : Nat) (u : User) (p : Profile),
      0 < rp → findUser db uid = some u → u.type = .EXECUTIVE →
      u.verified = true → findProfile db uid = some p →
      p.activeSlotId.isSome = true →
      createExecutiveSlot db uid tier cat rp cats now sid =
        (db, [], .error "Executive already has one active slot")) ∧
    ((∀ (gw : GatewayCall → Bool) (pubOk : Bool) (db : DB)
        (slotId now cid : Nat) (db1 : DB) (tr : List Event) (sid : Nat),
      (db.slots.map (fun s => s.id)).Nodup →
      closeAuction gw pubOk db slotId now cid = (db1, tr, .ok (.voided sid)) →
      ∀ s ∈ db.slots, s.id = slotId → profileCleared db1 s.executiveId) ∧
    (∀ (gw : GatewayCall → Bool) (db : DB) (cid uid now : Nat)
        (c : Contract) (slot : Slot) (wbid : Bid) (db' : DB) (tr : List Event)
        (r : CompletionResult),
      joinContract db cid = some (c, slot, wbid) →
      completeContract gw db cid uid now = (db', tr, .ok r) →
      profileCleared db' slot.executiveId) ∧
    (∀ (gw : GatewayCall → Bool) (db : DB) (cid now : Nat)
        (c : Contract) (slot : Slot) (wbid : Bid) (db' : DB) (tr : List Event)
        (x : Nat),
      joinContract db cid = some (c, slot, wbid) →
      autoBreachContract gw db cid now = (db', tr, .ok (some x)) →
      profileCleared db' slot.executiveId)) ∧
    (∀ db : DB, Reachable db →
      ∀ p ∈ db.profiles, ∀ sid, p.activeSlotId = some sid →
        ∃ s ∈ db.slots, s.id = sid ∧ s.executiveId = p.userId ∧
          isTerminal s.status = false) := by
  refine ⟨?_, ⟨?_, ?_, ?_⟩, ?_⟩
  · intro db uid tier cat rp cats now sid u p hrp hu hty hver hprof hsome
    simp only [createExecutiveSlot, hu, hprof]
    rw [if_neg (show ¬ rp ≤ 0 by omega), if_neg (by simp [hty, hver]),
      if_pos (by simp [hsome])]
  · intro gw pubOk db slotId now cid db1 tr sid hNs h
    simp only [closeAuction] at h
    split at h
    · simp at h
    next db0 lockedSlot heqLock =>
      obtain ⟨s0, hs0mem, hs0id, hs0open, hs0due, hls, hu0, hp0, hb0, hc0,
        hsl0⟩ := lockSlotForClose_some heqLock
      split at h
      · simp at h
      next profile heqProf =>
        split at h
        · split at h
          · simp at h
          next db2 tr0 heqRef =>
            split at h
            · rw [Prod.mk.injEq, Prod.mk.injEq] at h
              obtain ⟨hdb1, -, -⟩ := h
              intro s hsmem hsid
              have hseq : s = s0 :=
                eq_of_key_mem_nodup (fun x => x.id) hNs hsmem hs0mem
                  (by show s.id = s0.id; rw [hsid, hs0id])
              have hexec : lockedSlot.executiveId = s0.executiveId := by rw [hls]
              rw [hseq, ← hdb1, ← hexec]
              exact profileCleared_clearActiveSlot _ _
            · simp at h
        · repeat' split at h
          all_goals simp at h
  · intro gw db cid uid now c slot wbid db' tr r hj h
    simp only [completeContract, hj] at h
    repeat' split at h
    all_goals first
      | (exfalso; simp at h; done)
      | (rw [Prod.mk.injEq, Prod.mk.injEq] at h
         obtain ⟨hdb', -, -⟩ := h
         rw [← hdb']
         exact profileCleared_clearActiveSlot _ _)
  · intro gw db cid now c slot wbid db' tr x hj h
    simp only [autoBreachContract, hj] at h
    repeat' split at h
    all_goals first
      | (exfalso; simp at h; done)
      | (rw [Prod.mk.injEq, Prod.mk.injEq] at h
         obtain ⟨hdb', -, -⟩ := h
         rw [← hdb']
         exact profileCleared_clearActiveSlot _ _)
  · intro db hr
    exact (WF_reachable db hr).active

/-- The empty store seeded with one verified executive (user provisioning
step). -/
def seedUserDB : DB :=
  { emptyDB with
    users := emptyDB.users ++ [{ id := 1, type := .EXECUTIVE, verified := true }] }

/-- The reachable store after executive 1 creates slot 10 in `seedUserDB`:
its profile holds `activeSlotId = some 10`. -/
def oneSlotDB : DB :=
  (createExecutiveSlot seedUserDB 1 .days7 "backend" 60 ["backend"] 0 10).1

/-- Closed instance of `C5_active_slot_invariant`, applied to the concrete
non-empty reachable store `oneSlotDB` (empty store, then a user-seeding
step, then a successful slot creation): its issuer profile's
`activeSlotId = some 10` does point to an existing, issuer-owned,
non-terminal slot. -/
theorem C5_active_slot_invariant_witness :
    ∃ s ∈ oneSlotDB.slots, s.id = 10 ∧
      s.executiveId =
        ({ userId := 1, inviteOnly := true, activeSlotId := some 10,
           reservePrice := 60, categories := ["backend"] } : Profile).userId ∧
      isTerminal s.status = false :=
  C5_active_slot_invariant.2.2 oneSlotDB
    (Relation.ReflTransGen.tail
      (Relation.ReflTransGen.tail Relation.ReflTransGen.refl
        (Step.addUser emptyDB { id := 1, type := .EXECUTIVE, verified := true }))
      (Step.createSlot seedUserDB 1 .days7 "backend" 60 ["backend"] 0 10
        (by decide)))
    { userId := 1, inviteOnly := true, activeSlotId := some 10,
      reservePrice := 60, categories := ["backend"] }
    (by decide) 10 (by rfl)

end Granite
